import Mathlib

/-!
Shallow embedding of `download.py` from divergentdave/broadband-map-data.

The program downloads broadband-map data (districts, providers, per-provider
statistics, per-district ranking properties) from a REST API, caches every
response as a file, and compiles a summary CSV.  The embedding models the
filesystem cache as an association list from paths to typed file contents,
the remote API as a black-box `Server`, and records every network call in a
log so that claims about the number of fetches can be stated.  Fallible
operations return the partially updated state together with an optional
error, mirroring the fact that a raised Python exception leaves the files
written so far on disk.
-/

namespace Broadband

/-- Minimal JSON scalar: the fields of ranking entries are strings or integers. -/
inductive Json where
  | s (v : String)
  | n (v : Int)
deriving DecidableEq, Repr

/-- Python str() of a JSON scalar, as used in format strings and by the csv writer. -/
def Json.format : Json → String
  | Json.s v => v
  | Json.n v => toString v

/-- A JSON object as an association list; Python dict lookup is modelled by
first-match lookup (keys are unique in objects produced by JSON parsing). -/
abbrev JsonObj := List (String × Json)

/-- Association-list lookup, modelling Python dict subscripting and
`dict.get`: `none` corresponds to a KeyError / a `None` default. -/
def alookup {β : Type} : List (String × β) → String → Option β
  | [], _ => none
  | (k, v) :: rest, key => if key = k then some v else alookup rest key

/-- One entry of the congressional-district list returned by the API. -/
structure District where
  stateFips : String
  geographyId : String
  stateAbbreviation : String
  geographyName : String
deriving DecidableEq, Repr

/-- One entry of a provider list; only holdingCompanyNumber is read. -/
structure Provider where
  holdingCompanyNumber : String
deriving DecidableEq, Repr

/-- The Results payload of the provider-list endpoint; parse_providers_list
reads its allProviders member. -/
structure ProvidersResult where
  allProviders : List Provider
deriving DecidableEq, Repr

/-- The Results payload of the ranking endpoint: four buckets of district
entries, named FirstTen, myArea, LastTen and All in the JSON. -/
structure RankingResults where
  firstTen : List JsonObj
  myArea : List JsonObj
  lastTen : List JsonObj
  allList : List JsonObj
deriving DecidableEq, Repr

/-- A JSON response envelope: status and message are read with `dict.get`
(absent gives `none`); Results is only accessed when the status is OK. -/
structure Envelope (α : Type) where
  status : Option String
  message : Option String
  results : α

/-- The remote API as a black box: one response per endpoint and parameter
tuple.  Issuing a GET has no effect on the server, so a plain function. -/
structure Server where
  districts : Envelope (List District)
  providerList : String → String → String → Envelope ProvidersResult
  providerStats : String → String → String → String → Envelope Json
  ranking : String → String → String → Envelope RankingResults

/-- A record of one network call (one HTTP GET), used to count fetches. -/
inductive Request where
  | districts
  | providerList (dataVersion stateId districtId : String)
  | providerStats (dataVersion stateId districtId providerId : String)
  | ranking (dataVersion stateId districtId : String)
deriving DecidableEq, Repr

/-- Typed contents of one cached file. -/
inductive FileData where
  | districts (ds : List District)
  | providers (res : ProvidersResult)
  | stats (j : Json)
  | ranking (obj : JsonObj)
  | csv (rows : List (List String))
deriving DecidableEq, Repr

/-- The on-disk cache: paths mapped to file contents, most recent write first. -/
abbrev Cache := List (String × FileData)

/-- Writing a file (open(path, "w") followed by dump): the new content shadows
any previous content at the same path. -/
def Cache.write (c : Cache) (p : String) (d : FileData) : Cache := (p, d) :: c

/-- os.path.isfile on the cache. -/
def Cache.isFile (c : Cache) (p : String) : Bool := (alookup c p).isSome

/-- Program state: the cache plus the log of network calls issued so far. -/
structure St where
  cache : Cache
  calls : List Request
deriving DecidableEq, Repr

/-- The errors the program can raise.  apiError carries the context text of
the raised Exception together with the server-supplied message; keyError and
fileNotFound model Python's KeyError and FileNotFoundError; typeMismatch
covers reading a cache file whose payload has the wrong shape (cannot occur
in actual runs); rankingMissing is the raised inconsistency for an anchor
district absent from its own ranking response. -/
inductive Err where
  | apiError (context : String) (serverMessage : Option String)
  | keyError (key : String)
  | fileNotFound (path : String)
  | typeMismatch (path : String)
  | rankingMissing (districtName : String)
deriving DecidableEq, Repr

def DATA_DIR : String := "data"

def DISTRICTS_FILENAME : String := "districts.json"

/-- "providers-{}.json".format(district_name) -/
def PROVIDERS_FILENAME (district_name : String) : String :=
  "providers-" ++ district_name ++ ".json"

/-- "stats-{}-{}.json".format(district_name, provider_id) -/
def STATS_FILENAME (district_name provider_id : String) : String :=
  "stats-" ++ district_name ++ "-" ++ provider_id ++ ".json"

/-- "ranking-properties-{}.json".format(district_name) -/
def RANKING_PROPERTIES_FILENAME (district_name : String) : String :=
  "ranking-properties-" ++ district_name ++ ".json"

def CSV_FILENAME : String := "summary.csv"

/-- The nine ranking counter field names read from each cached ranking object. -/
def RANKING_PROPERTIES_JSON : List String :=
  ["wirelineProviderEquals0",
   "wirelineProviderGreaterThan1",
   "wirelineProviderGreaterThan2",
   "wirelineProviderGreaterThan3",
   "wirelineProviderGreaterThan4",
   "wirelineProviderGreaterThan5",
   "wirelineProviderGreaterThan6",
   "wirelineProviderGreaterThan7",
   "wirelineProviderGreaterThan8"]

/-- os.path.join for the simple relative paths this program builds. -/
def pathJoin (dir filename : String) : String := dir ++ "/" ++ filename

/-- Embeds download_districts: one GET; on OK status the Results payload is
written to file_path; otherwise the raised Exception, cache unchanged. -/
def download_districts (server : Server) (file_path : String) (st : St) :
    St × Option Err :=
  let st1 : St := { st with calls := st.calls ++ [Request.districts] }
  let response_object := server.districts
  if response_object.status = some "OK" then
    ({ st1 with
        cache := st1.cache.write file_path (FileData.districts response_object.results) },
      none)
  else
    (st1, some (Err.apiError "Downloading congressional districts failed"
      response_object.message))

/-- Embeds parse_districts: json.load of the districts file. -/
def parse_districts (cache : Cache) (file_path : String) :
    Except Err (List District) :=
  match alookup cache file_path with
  | some (FileData.districts ds) => Except.ok ds
  | some _ => Except.error (Err.typeMismatch file_path)
  | none => Except.error (Err.fileNotFound file_path)

/-- Embeds download_provider_list. -/
def download_provider_list (server : Server)
    (dataVersion state_id district_id file_path : String) (st : St) :
    St × Option Err :=
  let st1 : St :=
    { st with calls := st.calls ++ [Request.providerList dataVersion state_id district_id] }
  let response_object := server.providerList dataVersion state_id district_id
  if response_object.status = some "OK" then
    ({ st1 with
        cache := st1.cache.write file_path (FileData.providers response_object.results) },
      none)
  else
    (st1, some (Err.apiError "Downloading provider list failed"
      response_object.message))

/-- Embeds parse_providers_list: json.load of the providers file, then the
allProviders member. -/
def parse_providers_list (cache : Cache) (file_path : String) :
    Except Err (List Provider) :=
  match alookup cache file_path with
  | some (FileData.providers res) => Except.ok res.allProviders
  | some _ => Except.error (Err.typeMismatch file_path)
  | none => Except.error (Err.fileNotFound file_path)

/-- Embeds download_provider_stats. -/
def download_provider_stats (server : Server)
    (dataVersion state_id district_id provider_id file_path : String) (st : St) :
    St × Option Err :=
  let st1 : St :=
    { st with calls :=
        st.calls ++ [Request.providerStats dataVersion state_id district_id provider_id] }
  let response_object := server.providerStats dataVersion state_id district_id provider_id
  if response_object.status = some "OK" then
    ({ st1 with
        cache := st1.cache.write file_path (FileData.stats response_object.results) },
      none)
  else
    (st1, some (Err.apiError "Downloading provider statistics failed"
      response_object.message))

/-- The state-abbreviation dict subscripted with a JSON value: the dict keys
are the (string) stateFips values of the district list, so an integer
subscript never matches and gives a KeyError. -/
def fips_lookup (m : List (String × String)) : Json → Option String
  | Json.s v => alookup m v
  | Json.n _ => none

/-- Embeds the body of the bucket loop of download_ranking_properties: look up
the entry's geographyName and stateFips, resolve the state abbreviation,
build the district identity key, and write the entry to that district's
ranking-properties file only if the file does not already exist.  A KeyError
leaves the cache as written so far. -/
def process_ranking_entry (data_version_dir : String)
    (state_abbreviation_lookup : List (String × String))
    (cache : Cache) (district : JsonObj) : Cache × Option Err :=
  match alookup district "geographyName" with
  | none => (cache, some (Err.keyError "geographyName"))
  | some district_number =>
    match alookup district "stateFips" with
    | none => (cache, some (Err.keyError "stateFips"))
    | some state_id =>
      match fips_lookup state_abbreviation_lookup state_id with
      | none => (cache, some (Err.keyError (Json.format state_id)))
      | some state_abbr =>
        let district_name := state_abbr ++ "-" ++ Json.format district_number
        let ranking_properties_path :=
          pathJoin data_version_dir (RANKING_PROPERTIES_FILENAME district_name)
        if cache.isFile ranking_properties_path then (cache, none)
        else (cache.write ranking_properties_path (FileData.ranking district), none)

/-- The bucket loop of download_ranking_properties over the concatenation of
the four buckets, in source order. -/
def process_ranking_entries (data_version_dir : String)
    (state_abbreviation_lookup : List (String × String))
    (cache : Cache) : List JsonObj → Cache × Option Err
  | [] => (cache, none)
  | district :: rest =>
    match process_ranking_entry data_version_dir state_abbreviation_lookup cache district with
    | (cache', none) =>
      process_ranking_entries data_version_dir state_abbreviation_lookup cache' rest
    | (cache', some e) => (cache', some e)

/-- Embeds download_ranking_properties: one GET for the anchor district; on OK
status, fan the response's four buckets (FirstTen, myArea, LastTen, All, in
that order) out into per-district ranking-properties files. -/
def download_ranking_properties (server : Server)
    (dataVersion data_version_dir state_id district_id : String)
    (state_abbreviation_lookup : List (String × String)) (st : St) :
    St × Option Err :=
  let st1 : St :=
    { st with calls := st.calls ++ [Request.ranking dataVersion state_id district_id] }
  let response_object := server.ranking dataVersion state_id district_id
  if response_object.status = some "OK" then
    let results := response_object.results
    match process_ranking_entries data_version_dir state_abbreviation_lookup st1.cache
        (results.firstTen ++ results.myArea ++ results.lastTen ++ results.allList) with
    | (cache', e) => ({ st1 with cache := cache' }, e)
  else
    (st1, some (Err.apiError "Downloading provider statistics failed"
      response_object.message))

/-- Embeds district_sort_key. -/
def district_sort_key (district : District) : String × String :=
  (district.stateAbbreviation, district.geographyName)

/-- Python string comparison: lexicographic over the Unicode code points of
the two strings. -/
def charlist_lt : List Char → List Char → Bool
  | [], [] => false
  | [], _ :: _ => true
  | _ :: _, [] => false
  | c :: cs, d :: ds =>
    if c.toNat < d.toNat then true
    else if d.toNat < c.toNat then false
    else charlist_lt cs ds

/-- Python's a < b on strings. -/
def str_lt (a b : String) : Bool := charlist_lt a.data b.data

/-- Python's a <= b on strings: not (b < a). -/
def str_le (a b : String) : Bool := !(str_lt b a)

/-- Python tuple comparison of two (string, string) sort keys: lexicographic,
with each component compared as a string. -/
def key_le (x y : String × String) : Bool :=
  str_lt x.1 y.1 || (x.1 == y.1 && str_le x.2 y.2)

/-- The ordering used by sorted(districts, key=district_sort_key). -/
def district_le (a b : District) : Bool :=
  key_le (district_sort_key a) (district_sort_key b)

/-- The same ordering as a decidable relation.  Python's sorted() is a stable
sort by this key; it is modelled by stable insertion sort, which produces the
same list as any other stable sort by the same key. -/
def district_ord (a b : District) : Prop := district_le a b = true

instance decidable_district_ord : DecidableRel district_ord :=
  fun a b => instDecidableEqBool (district_le a b) true

/-- The district identity key "{stateAbbreviation}-{geographyName}". -/
def district_display_name (district : District) : String :=
  district.stateAbbreviation ++ "-" ++ district.geographyName

/-- The csv header row written by DictWriter.writeheader. -/
def csv_header : List String := "District" :: RANKING_PROPERTIES_JSON

/-- The dict comprehension building one summary row: every counter field is
looked up in the ranking-properties object; a missing field is a KeyError. -/
def get_fields (properties : JsonObj) : List String → Except Err (List Json)
  | [] => Except.ok []
  | field :: rest =>
    match alookup properties field with
    | none => Except.error (Err.keyError field)
    | some v =>
      match get_fields properties rest with
      | Except.ok vs => Except.ok (v :: vs)
      | Except.error e => Except.error e

/-- One summary row: the district identity key followed by the nine counters
in RANKING_PROPERTIES_JSON order, as written by DictWriter.writerow. -/
def make_row (district_name : String) (properties : JsonObj) :
    Except Err (List String) :=
  match get_fields properties RANKING_PROPERTIES_JSON with
  | Except.ok vs => Except.ok (district_name :: vs.map Json.format)
  | Except.error e => Except.error e

/-- The per-district loop of generate_csv: read each district's cached
ranking-properties file and append its row to summary.csv.  rows is the csv
content written so far; a failure leaves the file with those rows. -/
def csv_rows_loop (data_version_dir csv_path : String) (cache : Cache)
    (rows : List (List String)) : List District → Cache × Option Err
  | [] => (cache, none)
  | district :: rest =>
    let district_name := district_display_name district
    let ranking_properties_path :=
      pathJoin data_version_dir (RANKING_PROPERTIES_FILENAME district_name)
    match alookup cache ranking_properties_path with
    | none => (cache, some (Err.fileNotFound ranking_properties_path))
    | some (FileData.ranking properties) =>
      match make_row district_name properties with
      | Except.error e => (cache, some e)
      | Except.ok row =>
        csv_rows_loop data_version_dir csv_path
          (cache.write csv_path (FileData.csv (rows ++ [row]))) (rows ++ [row]) rest
    | some _ => (cache, some (Err.typeMismatch ranking_properties_path))

/-- Embeds generate_csv: open summary.csv for writing (truncating it), write
the header row, then read the district list, sort it, and emit one row per
district from its cached ranking-properties file. -/
def generate_csv (data_version_dir : String) (cache : Cache) :
    Cache × Option Err :=
  let csv_path := pathJoin data_version_dir CSV_FILENAME
  let cache1 := cache.write csv_path (FileData.csv [csv_header])
  let districts_path := pathJoin data_version_dir DISTRICTS_FILENAME
  match parse_districts cache1 districts_path with
  | Except.error e => (cache1, some e)
  | Except.ok districts =>
    csv_rows_loop data_version_dir csv_path cache1 [csv_header]
      (List.insertionSort district_ord districts)

/-- The stateFips → stateAbbreviation dict built in main by assignment over
the district list; prepending makes a later district with the same stateFips
shadow an earlier one, matching Python's last-assignment-wins. -/
def build_state_lookup (districts : List District) : List (String × String) :=
  districts.foldl (fun m district => (district.stateFips, district.stateAbbreviation) :: m) []

/-- The provider-list part of main's per-district body: check-then-fetch. -/
def providers_step (server : Server)
    (dataVersion state_id district_id providers_path : String) (st : St) :
    St × Option Err :=
  if st.cache.isFile providers_path then (st, none)
  else download_provider_list server dataVersion state_id district_id providers_path st

/-- The per-provider loop of main's optional statistics phase:
check-then-fetch for each provider's stats file. -/
def stats_loop (server : Server)
    (dataVersion data_version_dir state_id district_id district_name : String)
    (st : St) : List Provider → St × Option Err
  | [] => (st, none)
  | provider :: rest =>
    let provider_id := provider.holdingCompanyNumber
    let stats_path := pathJoin data_version_dir (STATS_FILENAME district_name provider_id)
    if st.cache.isFile stats_path then
      stats_loop server dataVersion data_version_dir state_id district_id district_name st rest
    else
      match download_provider_stats server dataVersion state_id district_id provider_id
          stats_path st with
      | (st', none) =>
        stats_loop server dataVersion data_version_dir state_id district_id district_name st' rest
      | (st', some e) => (st', some e)

/-- The flag-gated statistics phase of main's per-district body: when enabled,
parse the cached provider list and fetch each provider's stats. -/
def stats_step (server : Server) (dataVersion data_version_dir : String)
    (providerStatistics : Bool)
    (state_id district_id district_name providers_path : String) (st : St) :
    St × Option Err :=
  if providerStatistics then
    match parse_providers_list st.cache providers_path with
    | Except.error e => (st, some e)
    | Except.ok providers =>
      stats_loop server dataVersion data_version_dir state_id district_id district_name
        st providers
  else (st, none)

/-- The ranking part of main's per-district body: if the anchor district's
ranking-properties file is missing, issue the ranking call, then re-check
that the file now exists and raise the inconsistency otherwise. -/
def ranking_step (server : Server)
    (dataVersion data_version_dir state_id district_id district_name : String)
    (state_abbreviation_lookup : List (String × String)) (st : St) :
    St × Option Err :=
  let ranking_properties_path :=
    pathJoin data_version_dir (RANKING_PROPERTIES_FILENAME district_name)
  if st.cache.isFile ranking_properties_path then (st, none)
  else
    match download_ranking_properties server dataVersion data_version_dir state_id
        district_id state_abbreviation_lookup st with
    | (st', some e) => (st', some e)
    | (st', none) =>
      if st'.cache.isFile ranking_properties_path then (st', none)
      else (st', some (Err.rankingMissing district_name))

/-- The whole per-district body of main's loop. -/
def per_district_step (server : Server) (dataVersion data_version_dir : String)
    (providerStatistics : Bool)
    (state_abbreviation_lookup : List (String × String))
    (district : District) (st : St) : St × Option Err :=
  let state_id := district.stateFips
  let district_id := district.geographyId
  let district_name := district_display_name district
  let providers_path := pathJoin data_version_dir (PROVIDERS_FILENAME district_name)
  match providers_step server dataVersion state_id district_id providers_path st with
  | (st1, some e) => (st1, some e)
  | (st1, none) =>
    match stats_step server dataVersion data_version_dir providerStatistics state_id
        district_id district_name providers_path st1 with
    | (st2, some e) => (st2, some e)
    | (st2, none) =>
      ranking_step server dataVersion data_version_dir state_id district_id district_name
        state_abbreviation_lookup st2

/-- main's loop over the district list. -/
def districts_loop (server : Server) (dataVersion data_version_dir : String)
    (providerStatistics : Bool)
    (state_abbreviation_lookup : List (String × String)) (st : St) :
    List District → St × Option Err
  | [] => (st, none)
  | district :: rest =>
    match per_district_step server dataVersion data_version_dir providerStatistics
        state_abbreviation_lookup district st with
    | (st', none) =>
      districts_loop server dataVersion data_version_dir providerStatistics
        state_abbreviation_lookup st' rest
    | (st', some e) => (st', some e)

/-- The fetch phase of main (everything after argument parsing and directory
creation, up to but excluding generate_csv): check-then-fetch the district
list, build the stateFips lookup, then run the per-district loop. -/
def fetch_phase (server : Server) (dataVersion : String)
    (providerStatistics : Bool) (st : St) : St × Option Err :=
  let data_version_dir := pathJoin DATA_DIR dataVersion
  let districts_path := pathJoin data_version_dir DISTRICTS_FILENAME
  match (if st.cache.isFile districts_path then (st, none)
         else download_districts server districts_path st) with
  | (st1, some e) => (st1, some e)
  | (st1, none) =>
    match parse_districts st1.cache districts_path with
    | Except.error e => (st1, some e)
    | Except.ok districts =>
      districts_loop server dataVersion data_version_dir providerStatistics
        (build_state_lookup districts) st1 districts

/-- Embeds main after argument parsing: the fetch phase followed by
generate_csv.  generate_csv runs only when the fetch phase succeeded; a
fetch error aborts the run, keeping whatever was cached. -/
def main_run (server : Server) (dataVersion : String)
    (providerStatistics : Bool) (st : St) : St × Option Err :=
  match fetch_phase server dataVersion providerStatistics st with
  | (st1, some e) => (st1, some e)
  | (st1, none) =>
    match generate_csv (pathJoin DATA_DIR dataVersion) st1.cache with
    | (cache', e) => ({ st1 with cache := cache' }, e)

/-- Path of the cached district list under a version directory. -/
def districtsPathOf (data_version_dir : String) : String :=
  pathJoin data_version_dir DISTRICTS_FILENAME

/-- Path of a district's cached provider list. -/
def providersPathOf (data_version_dir : String) (district : District) : String :=
  pathJoin data_version_dir (PROVIDERS_FILENAME (district_display_name district))

/-- Path of a provider's cached statistics for a district. -/
def statsPathOf (data_version_dir : String) (district : District)
    (provider_id : String) : String :=
  pathJoin data_version_dir (STATS_FILENAME (district_display_name district) provider_id)

/-- Path of a district's cached ranking properties. -/
def rankingPathOf (data_version_dir : String) (district : District) : String :=
  pathJoin data_version_dir (RANKING_PROPERTIES_FILENAME (district_display_name district))

/-- Path of the summary CSV. -/
def csvPathOf (data_version_dir : String) : String :=
  pathJoin data_version_dir CSV_FILENAME

/-- The concatenation of the four ranking buckets in the order the source
iterates them: FirstTen, myArea, LastTen, All. -/
def all_buckets (results : RankingResults) : List JsonObj :=
  results.firstTen ++ results.myArea ++ results.lastTen ++ results.allList

/-- The district identity key computed for one ranking entry, when all three
dict lookups involved succeed. -/
def entry_key (state_abbreviation_lookup : List (String × String))
    (district : JsonObj) : Option String :=
  match alookup district "geographyName", alookup district "stateFips" with
  | some district_number, some state_id =>
    (match fips_lookup state_abbreviation_lookup state_id with
     | some state_abbr => some (state_abbr ++ "-" ++ Json.format district_number)
     | none => none)
  | _, _ => none

/-- All resources of one district are cached: its provider list, its
per-provider stats when the flag is on, and its ranking properties. -/
def district_done (data_version_dir : String) (providerStatistics : Bool)
    (cache : Cache) (district : District) : Prop :=
  (alookup cache (providersPathOf data_version_dir district)).isSome = true ∧
  (providerStatistics = true →
    ∃ res, alookup cache (providersPathOf data_version_dir district) =
        some (FileData.providers res) ∧
      ∀ p ∈ res.allProviders,
        (alookup cache
          (statsPathOf data_version_dir district p.holdingCompanyNumber)).isSome = true) ∧
  (alookup cache (rankingPathOf data_version_dir district)).isSome = true

/-- The cache is fully populated for a run: the districts file is present and
every district in it has all its resources cached. -/
def populated (dataVersion : String) (providerStatistics : Bool)
    (cache : Cache) : Prop :=
  ∃ ds, alookup cache (districtsPathOf (pathJoin DATA_DIR dataVersion)) =
      some (FileData.districts ds) ∧
    ∀ d ∈ ds, district_done (pathJoin DATA_DIR dataVersion) providerStatistics cache d

/-- p is the path of one of the four cached resource kinds under the given
version directory (districts list, a provider list, a provider's stats, or a
district's ranking properties). -/
def is_resource_path (data_version_dir p : String) : Prop :=
  p = districtsPathOf data_version_dir ∨
  (∃ name, p = pathJoin data_version_dir (PROVIDERS_FILENAME name)) ∨
  (∃ name pid, p = pathJoin data_version_dir (STATS_FILENAME name pid)) ∨
  (∃ name, p = pathJoin data_version_dir (RANKING_PROPERTIES_FILENAME name))

/-- Every entry of a ranking response carries a geographyName and a
string-valued stateFips. -/
def entries_have_keys (entries : List JsonObj) : Prop :=
  ∀ e ∈ entries, (alookup e "geographyName").isSome = true ∧
    ∃ fips, alookup e "stateFips" = some (Json.s fips)

/-- One cache preserves another: every file present in the first is present
with the same content in the second. -/
def Preserves (c c' : Cache) : Prop :=
  ∀ p v, alookup c p = some v → alookup c' p = some v

/-- Two caches agree on every path other than q. -/
def AgreesExcept (q : String) (c c' : Cache) : Prop :=
  ∀ p, p ≠ q → alookup c' p = alookup c p

/-- Fixture: congressional district AL-1. -/
def dAL1 : District := ⟨"01", "g1", "AL", "1"⟩

/-- Fixture: congressional district AL-10. -/
def dAL10 : District := ⟨"01", "g2", "AL", "10"⟩

/-- Fixture: congressional district TX-5. -/
def dTX5 : District := ⟨"48", "g3", "TX", "5"⟩

/-- Fixture: the nine ranking counters, each set to 1. -/
def countersW : List (String × Json) :=
  RANKING_PROPERTIES_JSON.map (fun k => (k, Json.n 1))

/-- Fixture: a well-formed ranking entry for a district. -/
def entryW (district : District) : JsonObj :=
  ("geographyName", Json.s district.geographyName) ::
    ("stateFips", Json.s district.stateFips) :: countersW

/-- Fixture: a healthy server whose every answer is OK, with two districts
and a ranking response that always lists both of them. -/
def serverW : Server :=
  { districts := ⟨some "OK", none, [dAL1, dTX5]⟩
  , providerList := fun _ _ _ => ⟨some "OK", none, ⟨[⟨"p1"⟩]⟩⟩
  , providerStats := fun _ _ _ _ => ⟨some "OK", none, Json.s "st"⟩
  , ranking := fun _ _ _ => ⟨some "OK", none, ⟨[entryW dAL1, entryW dTX5], [], [], []⟩⟩ }

/-- Fixture: a server whose every answer has a non-OK status. -/
def serverBad : Server :=
  { districts := ⟨some "ERROR", some "down for maintenance", []⟩
  , providerList := fun _ _ _ => ⟨none, some "no status", ⟨[]⟩⟩
  , providerStats := fun _ _ _ _ => ⟨some "BUSY", some "try later", Json.s "x"⟩
  , ranking := fun _ _ _ => ⟨some "FAIL", some "bad request", ⟨[], [], [], []⟩⟩ }

/-- Fixture: a server whose ranking response never contains the anchor. -/
def serverNoAnchor : Server :=
  { districts := ⟨some "OK", none, [dAL1]⟩
  , providerList := fun _ _ _ => ⟨some "OK", none, ⟨[]⟩⟩
  , providerStats := fun _ _ _ _ => ⟨some "OK", none, Json.s "st"⟩
  , ranking := fun _ _ _ => ⟨some "OK", none, ⟨[], [], [], []⟩⟩ }

/-- Fixture: the version directory used by witnesses. -/
def dirW : String := pathJoin DATA_DIR "jun2014"

/-- Fixture: like cacheW5 but with AL-10's ranking-properties file absent. -/
def cacheW7 : Cache :=
  [ (districtsPathOf dirW, FileData.districts [dTX5, dAL1, dAL10]),
    (rankingPathOf dirW dTX5, FileData.ranking (entryW dTX5)),
    (rankingPathOf dirW dAL1, FileData.ranking (entryW dAL1)) ]

/-- Fixture: a cache that already holds a ranking-properties file for AL-1
with recognisable content, to observe that a run never overwrites it. -/
def cacheW8 : Cache :=
  [(rankingPathOf dirW dAL1, FileData.ranking [("marker", Json.s "old")])]

/-- Fixture: a cache holding the district list TX-5, AL-1, AL-10 and a
ranking-properties file for each, as the Summary Compiler expects. -/
def cacheW5 : Cache :=
  [ (districtsPathOf dirW, FileData.districts [dTX5, dAL1, dAL10]),
    (rankingPathOf dirW dTX5, FileData.ranking (entryW dTX5)),
    (rankingPathOf dirW dAL1, FileData.ranking (entryW dAL1)),
    (rankingPathOf dirW dAL10, FileData.ranking (entryW dAL10)) ]

theorem alookup_write (c : Cache) (q : String) (d : FileData) (p : String) :
    alookup (c.write q d) p = if p = q then some d else alookup c p := rfl

theorem alookup_write_self (c : Cache) (q : String) (d : FileData) :
    alookup (c.write q d) q = some d := by
  rw [alookup_write, if_pos rfl]

theorem isFile_iff {c : Cache} {p : String} :
    c.isFile p = true ↔ ∃ v, alookup c p = some v := by
  simp [Cache.isFile, Option.isSome_iff_exists]

theorem isFile_false_iff {c : Cache} {p : String} :
    c.isFile p = false ↔ alookup c p = none := by
  cases h : alookup c p <;> simp [Cache.isFile, h]

theorem Preserves.rfl (c : Cache) : Preserves c c := fun _ _ h => h

theorem Preserves.trans {a b c : Cache} (h1 : Preserves a b)
    (h2 : Preserves b c) : Preserves a c :=
  fun p v h => h2 p v (h1 p v h)

theorem preserves_write_absent {c : Cache} {q : String} (d : FileData)
    (habs : alookup c q = none) : Preserves c (c.write q d) := by
  intro p v h
  by_cases hpq : p = q
  · subst hpq; rw [h] at habs; cases habs
  · rw [alookup_write, if_neg hpq]; exact h

theorem preserves_of_isFile_false {c : Cache} {q : String} (d : FileData)
    (habs : c.isFile q = false) : Preserves c (c.write q d) :=
  preserves_write_absent d (isFile_false_iff.mp habs)

theorem download_districts_preserves {server : Server} {file_path : String}
    {st st' : St} {e : Option Err}
    (habs : alookup st.cache file_path = none)
    (h : download_districts server file_path st = (st', e)) :
    Preserves st.cache st'.cache := by
  simp only [download_districts] at h
  split at h
  · cases h; exact preserves_write_absent _ habs
  · cases h; exact Preserves.rfl _

theorem download_provider_list_preserves {server : Server}
    {dataVersion state_id district_id file_path : String}
    {st st' : St} {e : Option Err}
    (habs : alookup st.cache file_path = none)
    (h : download_provider_list server dataVersion state_id district_id file_path st
      = (st', e)) :
    Preserves st.cache st'.cache := by
  simp only [download_provider_list] at h
  split at h
  · cases h; exact preserves_write_absent _ habs
  · cases h; exact Preserves.rfl _

theorem download_provider_stats_preserves {server : Server}
    {dataVersion state_id district_id provider_id file_path : String}
    {st st' : St} {e : Option Err}
    (habs : alookup st.cache file_path = none)
    (h : download_provider_stats server dataVersion state_id district_id provider_id
      file_path st = (st', e)) :
    Preserves st.cache st'.cache := by
  simp only [download_provider_stats] at h
  split at h
  · cases h; exact preserves_write_absent _ habs
  · cases h; exact Preserves.rfl _

theorem process_ranking_entry_preserves {dir : String}
    {m : List (String × String)} {cache cache' : Cache} {district : JsonObj}
    {e : Option Err}
    (h : process_ranking_entry dir m cache district = (cache', e)) :
    Preserves cache cache' := by
  simp only [process_ranking_entry] at h
  split at h
  · cases h; exact Preserves.rfl _
  · split at h
    · cases h; exact Preserves.rfl _
    · split at h
      · cases h; exact Preserves.rfl _
      · split at h
        · cases h; exact Preserves.rfl _
        · next hfile =>
          cases h
          exact preserves_of_isFile_false _ (Bool.not_eq_true _ ▸ Bool.of_not_eq_true hfile)

theorem process_ranking_entries_preserves {dir : String}
    {m : List (String × String)} (entries : List JsonObj) :
    ∀ {cache cache' : Cache} {e : Option Err},
      process_ranking_entries dir m cache entries = (cache', e) →
      Preserves cache cache' := by
  induction entries with
  | nil =>
    intro cache cache' e h
    unfold process_ranking_entries at h
    cases h; exact Preserves.rfl _
  | cons d rest ih =>
    intro cache cache' e h
    unfold process_ranking_entries at h
    split at h
    · next heq => exact (process_ranking_entry_preserves heq).trans (ih h)
    · next heq => cases h; exact process_ranking_entry_preserves heq

theorem download_ranking_properties_preserves {server : Server}
    {dataVersion data_version_dir state_id district_id : String}
    {m : List (String × String)} {st st' : St} {e : Option Err}
    (h : download_ranking_properties server dataVersion data_version_dir state_id
      district_id m st = (st', e)) :
    Preserves st.cache st'.cache := by
  simp only [download_ranking_properties] at h
  split at h
  · cases h; exact process_ranking_entries_preserves _ rfl
  · cases h; exact Preserves.rfl _

theorem providers_step_preserves {server : Server}
    {dataVersion state_id district_id providers_path : String}
    {st st' : St} {e : Option Err}
    (h : providers_step server dataVersion state_id district_id providers_path st
      = (st', e)) :
    Preserves st.cache st'.cache := by
  simp only [providers_step] at h
  split at h
  · cases h; exact Preserves.rfl _
  · next hfile =>
    exact download_provider_list_preserves
      (isFile_false_iff.mp (by simpa using hfile)) h

theorem stats_loop_preserves {server : Server}
    {dataVersion data_version_dir state_id district_id district_name : String}
    (providers : List Provider) :
    ∀ {st st' : St} {e : Option Err},
      stats_loop server dataVersion data_version_dir state_id district_id district_name
        st providers = (st', e) →
      Preserves st.cache st'.cache := by
  induction providers with
  | nil =>
    intro st st' e h
    simp only [stats_loop] at h
    cases h; exact Preserves.rfl _
  | cons provider rest ih =>
    intro st st' e h
    simp only [stats_loop] at h
    split at h
    · exact ih h
    · next hfile =>
      split at h
      · next heq =>
        exact (download_provider_stats_preserves
          (isFile_false_iff.mp (by simpa using hfile)) heq).trans (ih h)
      · next heq =>
        cases h
        exact download_provider_stats_preserves
          (isFile_false_iff.mp (by simpa using hfile)) heq

theorem stats_step_preserves {server : Server}
    {dataVersion data_version_dir : String} {providerStatistics : Bool}
    {state_id district_id district_name providers_path : String}
    {st st' : St} {e : Option Err}
    (h : stats_step server dataVersion data_version_dir providerStatistics state_id
      district_id district_name providers_path st = (st', e)) :
    Preserves st.cache st'.cache := by
  simp only [stats_step] at h
  split at h
  · split at h
    · cases h; exact Preserves.rfl _
    · exact stats_loop_preserves _ h
  · cases h; exact Preserves.rfl _

theorem ranking_step_preserves {server : Server}
    {dataVersion data_version_dir state_id district_id district_name : String}
    {m : List (String × String)} {st st' : St} {e : Option Err}
    (h : ranking_step server dataVersion data_version_dir state_id district_id
      district_name m st = (st', e)) :
    Preserves st.cache st'.cache := by
  simp only [ranking_step] at h
  split at h
  · cases h; exact Preserves.rfl _
  · split at h
    · next heq => cases h; exact download_ranking_properties_preserves heq
    · next heq =>
      split at h <;> cases h <;> exact download_ranking_properties_preserves heq

theorem per_district_step_preserves {server : Server}
    {dataVersion data_version_dir : String} {providerStatistics : Bool}
    {m : List (String × String)} {district : District}
    {st st' : St} {e : Option Err}
    (h : per_district_step server dataVersion data_version_dir providerStatistics m
      district st = (st', e)) :
    Preserves st.cache st'.cache := by
  simp only [per_district_step] at h
  split at h
  · next heq => cases h; exact providers_step_preserves heq
  · next heq1 =>
    split at h
    · next heq2 =>
      cases h
      exact (providers_step_preserves heq1).trans (stats_step_preserves heq2)
    · next heq2 =>
      exact ((providers_step_preserves heq1).trans
        (stats_step_preserves heq2)).trans (ranking_step_preserves h)

theorem districts_loop_preserves {server : Server}
    {dataVersion data_version_dir : String} {providerStatistics : Bool}
    {m : List (String × String)} (districts : List District) :
    ∀ {st st' : St} {e : Option Err},
      districts_loop server dataVersion data_version_dir providerStatistics m st
        districts = (st', e) →
      Preserves st.cache st'.cache := by
  induction districts with
  | nil =>
    intro st st' e h
    simp only [districts_loop] at h
    cases h; exact Preserves.rfl _
  | cons district rest ih =>
    intro st st' e h
    simp only [districts_loop] at h
    split at h
    · next heq => exact (per_district_step_preserves heq).trans (ih h)
    · next heq => cases h; exact per_district_step_preserves heq

theorem fetch_phase_preserves {server : Server} {dataVersion : String}
    {providerStatistics : Bool} {st st' : St} {e : Option Err}
    (h : fetch_phase server dataVersion providerStatistics st = (st', e)) :
    Preserves st.cache st'.cache := by
  simp only [fetch_phase] at h
  split at h
  · next heq =>
    cases h
    split at heq
    · cases heq
    · next hfile =>
      exact download_districts_preserves
        (isFile_false_iff.mp (by simpa using hfile)) heq
  · next st1 heq =>
    have h1 : Preserves st.cache st1.cache := by
      split at heq
      · cases heq; exact Preserves.rfl _
      · next hfile =>
        exact download_districts_preserves
          (isFile_false_iff.mp (by simpa using hfile)) heq
    split at h
    · cases h; exact h1
    · exact h1.trans (districts_loop_preserves _ h)

theorem csv_rows_loop_agrees {data_version_dir csv_path : String}
    (districts : List District) :
    ∀ {cache cache' : Cache} {rows : List (List String)} {e : Option Err},
      csv_rows_loop data_version_dir csv_path cache rows districts = (cache', e) →
      AgreesExcept csv_path cache cache' := by
  induction districts with
  | nil =>
    intro cache cache' rows e h
    simp only [csv_rows_loop] at h
    cases h; exact fun p hp => rfl
  | cons district rest ih =>
    intro cache cache' rows e h
    simp only [csv_rows_loop] at h
    split at h
    · cases h; exact fun p hp => rfl
    · split at h
      · cases h; exact fun p hp => rfl
      · have h2 := ih h
        intro p hp
        rw [h2 p hp, alookup_write, if_neg hp]
    · cases h; exact fun p hp => rfl

theorem generate_csv_agrees {data_version_dir : String} {cache cache' : Cache}
    {e : Option Err}
    (h : generate_csv data_version_dir cache = (cache', e)) :
    AgreesExcept (csvPathOf data_version_dir) cache cache' := by
  simp only [generate_csv] at h
  split at h
  · cases h
    intro p hp
    rw [alookup_write, if_neg (by simpa [csvPathOf] using hp)]
  · have h2 := csv_rows_loop_agrees _ h
    intro p hp
    rw [h2 p (by simpa [csvPathOf] using hp), alookup_write,
      if_neg (by simpa [csvPathOf] using hp)]

theorem main_run_preserves_noncsv {server : Server} {dataVersion : String}
    {providerStatistics : Bool} {st st' : St} {e : Option Err} {p : String}
    {v : FileData}
    (hp : p ≠ csvPathOf (pathJoin DATA_DIR dataVersion))
    (hv : alookup st.cache p = some v)
    (h : main_run server dataVersion providerStatistics st = (st', e)) :
    alookup st'.cache p = some v := by
  simp only [main_run] at h
  split at h
  · next heq => cases h; exact fetch_phase_preserves heq p v hv
  · next st1 heq =>
    cases h
    have h1 := fetch_phase_preserves heq p v hv
    have h2 := generate_csv_agrees
      (show generate_csv (pathJoin DATA_DIR dataVersion) st1.cache
          = ((generate_csv (pathJoin DATA_DIR dataVersion) st1.cache).1,
             (generate_csv (pathJoin DATA_DIR dataVersion) st1.cache).2) from rfl)
    exact (h2 p hp).trans h1

theorem Preserves.isSome_mono {c c' : Cache} (h : Preserves c c') {p : String}
    (hs : (alookup c p).isSome = true) : (alookup c' p).isSome = true := by
  obtain ⟨v, hv⟩ := Option.isSome_iff_exists.mp hs
  rw [h p v hv]; rfl

theorem parse_districts_ok {cache : Cache} {path : String} {ds : List District}
    (h : parse_districts cache path = Except.ok ds) :
    alookup cache path = some (FileData.districts ds) := by
  unfold parse_districts at h
  split at h
  · next heq => cases h; exact heq
  · cases h
  · cases h

theorem parse_districts_of_lookup {cache : Cache} {path : String}
    {ds : List District} (h : alookup cache path = some (FileData.districts ds)) :
    parse_districts cache path = Except.ok ds := by
  unfold parse_districts
  rw [h]

theorem parse_providers_list_ok {cache : Cache} {path : String}
    {providers : List Provider}
    (h : parse_providers_list cache path = Except.ok providers) :
    ∃ res, alookup cache path = some (FileData.providers res) ∧
      res.allProviders = providers := by
  unfold parse_providers_list at h
  split at h
  · next res heq => cases h; exact ⟨res, heq, rfl⟩
  · cases h
  · cases h

theorem parse_providers_list_of_lookup {cache : Cache} {path : String}
    {res : ProvidersResult}
    (h : alookup cache path = some (FileData.providers res)) :
    parse_providers_list cache path = Except.ok res.allProviders := by
  unfold parse_providers_list
  rw [h]

theorem providers_step_done {server : Server}
    {dataVersion state_id district_id providers_path : String} {st st' : St}
    (h : providers_step server dataVersion state_id district_id providers_path st
      = (st', none)) :
    (alookup st'.cache providers_path).isSome = true := by
  simp only [providers_step] at h
  split at h
  · next hfile => cases h; simpa [Cache.isFile] using hfile
  · simp only [download_provider_list] at h
    split at h
    · cases h; simp [alookup_write_self]
    · cases h

theorem stats_loop_done {server : Server}
    {dataVersion data_version_dir state_id district_id district_name : String}
    (providers : List Provider) :
    ∀ {st st' : St},
      stats_loop server dataVersion data_version_dir state_id district_id district_name
        st providers = (st', none) →
      ∀ p ∈ providers,
        (alookup st'.cache
          (pathJoin data_version_dir
            (STATS_FILENAME district_name p.holdingCompanyNumber))).isSome = true := by
  induction providers with
  | nil => intro st st' h p hp; cases hp
  | cons provider rest ih =>
    intro st st' h p hp
    simp only [stats_loop] at h
    rcases List.mem_cons.mp hp with hp | hp
    · subst hp
      split at h
      · next hfile =>
        exact (stats_loop_preserves rest h).isSome_mono (by simpa [Cache.isFile] using hfile)
      · split at h
        · next st2 heq =>
          have hw : (alookup st2.cache
              (pathJoin data_version_dir
                (STATS_FILENAME district_name p.holdingCompanyNumber))).isSome = true := by
            simp only [download_provider_stats] at heq
            split at heq
            · cases heq; simp [alookup_write_self]
            · cases heq
          exact (stats_loop_preserves rest h).isSome_mono hw
        · cases h
    · split at h
      · exact ih h p hp
      · split at h
        · exact ih h p hp
        · cases h

theorem stats_step_done {server : Server} {dataVersion data_version_dir : String}
    {providerStatistics : Bool}
    {state_id district_id district_name providers_path : String} {st st' : St}
    (h : stats_step server dataVersion data_version_dir providerStatistics state_id
      district_id district_name providers_path st = (st', none))
    (hflag : providerStatistics = true) :
    ∃ res, alookup st'.cache providers_path = some (FileData.providers res) ∧
      ∀ p ∈ res.allProviders,
        (alookup st'.cache
          (pathJoin data_version_dir
            (STATS_FILENAME district_name p.holdingCompanyNumber))).isSome = true := by
  subst hflag
  simp only [stats_step, if_pos] at h
  split at h
  · cases h
  · next providers heq =>
    obtain ⟨res, hres, hall⟩ := parse_providers_list_ok heq
    refine ⟨res, stats_loop_preserves _ h _ _ hres, ?_⟩
    intro p hp
    exact stats_loop_done _ h p (hall ▸ hp)

theorem ranking_step_done {server : Server}
    {dataVersion data_version_dir state_id district_id district_name : String}
    {m : List (String × String)} {st st' : St}
    (h : ranking_step server dataVersion data_version_dir state_id district_id
      district_name m st = (st', none)) :
    (alookup st'.cache
      (pathJoin data_version_dir
        (RANKING_PROPERTIES_FILENAME district_name))).isSome = true := by
  simp only [ranking_step] at h
  split at h
  · next hfile => cases h; simpa [Cache.isFile] using hfile
  · split at h
    · cases h
    · split at h
      · next hfile => cases h; simpa [Cache.isFile] using hfile
      · cases h

theorem district_done_mono {data_version_dir : String} {providerStatistics : Bool}
    {cache cache' : Cache} {district : District} (hp : Preserves cache cache')
    (hd : district_done data_version_dir providerStatistics cache district) :
    district_done data_version_dir providerStatistics cache' district := by
  obtain ⟨h1, h2, h3⟩ := hd
  refine ⟨hp.isSome_mono h1, ?_, hp.isSome_mono h3⟩
  intro hflag
  obtain ⟨res, hres, hall⟩ := h2 hflag
  exact ⟨res, hp _ _ hres, fun p hpmem => hp.isSome_mono (hall p hpmem)⟩

theorem per_district_step_done {server : Server}
    {dataVersion data_version_dir : String} {providerStatistics : Bool}
    {m : List (String × String)} {district : District} {st st' : St}
    (h : per_district_step server dataVersion data_version_dir providerStatistics m
      district st = (st', none)) :
    district_done data_version_dir providerStatistics st'.cache district := by
  simp only [per_district_step] at h
  split at h
  · cases h
  · next st1 heq1 =>
    split at h
    · cases h
    · next st2 heq2 =>
      have hprov := providers_step_done heq1
      have hpres2 := stats_step_preserves heq2
      have hpres3 := ranking_step_preserves h
      refine ⟨(hpres2.trans hpres3).isSome_mono hprov, ?_, ranking_step_done h⟩
      intro hflag
      obtain ⟨res, hres, hall⟩ := stats_step_done heq2 hflag
      exact ⟨res, hpres3 _ _ hres, fun p hp => hpres3.isSome_mono (hall p hp)⟩

theorem districts_loop_done {server : Server}
    {dataVersion data_version_dir : String} {providerStatistics : Bool}
    {m : List (String × String)} (districts : List District) :
    ∀ {st st' : St},
      districts_loop server dataVersion data_version_dir providerStatistics m st
        districts = (st', none) →
      ∀ d ∈ districts, district_done data_version_dir providerStatistics st'.cache d := by
  induction districts with
  | nil => intro st st' h d hd; cases hd
  | cons district rest ih =>
    intro st st' h d hd
    simp only [districts_loop] at h
    split at h
    · next heq =>
      rcases List.mem_cons.mp hd with hd | hd
      · subst hd
        exact district_done_mono (districts_loop_preserves rest h)
          (per_district_step_done heq)
      · exact ih h d hd
    · cases h

theorem fetch_phase_populated {server : Server} {dataVersion : String}
    {providerStatistics : Bool} {st st' : St}
    (h : fetch_phase server dataVersion providerStatistics st = (st', none)) :
    populated dataVersion providerStatistics st'.cache := by
  simp only [fetch_phase] at h
  split at h
  · cases h
  · next st1 heq =>
    split at h
    · cases h
    · next districts hparse =>
      have hlook := parse_districts_ok hparse
      have hpres := districts_loop_preserves districts h
      exact ⟨districts, hpres _ _ hlook, districts_loop_done districts h⟩

theorem stats_loop_skip {server : Server}
    {dataVersion data_version_dir state_id district_id district_name : String}
    (providers : List Provider) (st : St)
    (hall : ∀ p ∈ providers,
      (alookup st.cache
        (pathJoin data_version_dir
          (STATS_FILENAME district_name p.holdingCompanyNumber))).isSome = true) :
    stats_loop server dataVersion data_version_dir state_id district_id district_name
      st providers = (st, none) := by
  induction providers with
  | nil => simp [stats_loop]
  | cons provider rest ih =>
    have hfile : st.cache.isFile
        (pathJoin data_version_dir
          (STATS_FILENAME district_name provider.holdingCompanyNumber)) = true := by
      simpa [Cache.isFile] using hall provider (List.mem_cons_self ..)
    simp only [stats_loop, hfile, if_pos]
    exact ih fun p hp => hall p (List.mem_cons_of_mem _ hp)

theorem per_district_step_skip {server : Server}
    {dataVersion data_version_dir : String} {providerStatistics : Bool}
    {m : List (String × String)} {district : District} (st : St)
    (hd : district_done data_version_dir providerStatistics st.cache district) :
    per_district_step server dataVersion data_version_dir providerStatistics m
      district st = (st, none) := by
  obtain ⟨h1, h2, h3⟩ := hd
  have hprovfile : st.cache.isFile
      (pathJoin data_version_dir
        (PROVIDERS_FILENAME (district_display_name district))) = true := by
    simpa [Cache.isFile, providersPathOf] using h1
  have hrankfile : st.cache.isFile
      (pathJoin data_version_dir
        (RANKING_PROPERTIES_FILENAME (district_display_name district))) = true := by
    simpa [Cache.isFile, rankingPathOf] using h3
  have hstats : stats_step server dataVersion data_version_dir providerStatistics
      district.stateFips district.geographyId (district_display_name district)
      (pathJoin data_version_dir
        (PROVIDERS_FILENAME (district_display_name district))) st = (st, none) := by
    cases hps : providerStatistics with
    | false => simp [stats_step, hps]
    | true =>
      obtain ⟨res, hres, hall⟩ := h2 hps
      rw [providersPathOf] at hres
      simp only [stats_step, if_pos rfl,
        parse_providers_list_of_lookup hres]
      exact stats_loop_skip _ _ fun p hp => by
        simpa [statsPathOf] using hall p hp
  simp only [per_district_step, providers_step, hprovfile, if_pos, hstats,
    ranking_step, hrankfile]

theorem districts_loop_skip {server : Server}
    {dataVersion data_version_dir : String} {providerStatistics : Bool}
    {m : List (String × String)} (districts : List District) (st : St)
    (hall : ∀ d ∈ districts,
      district_done data_version_dir providerStatistics st.cache d) :
    districts_loop server dataVersion data_version_dir providerStatistics m st
      districts = (st, none) := by
  induction districts with
  | nil => simp [districts_loop]
  | cons district rest ih =>
    simp only [districts_loop,
      per_district_step_skip st (hall district (List.mem_cons_self ..))]
    exact ih fun d hd => hall d (List.mem_cons_of_mem _ hd)

theorem fetch_phase_skip {server : Server} {dataVersion : String}
    {providerStatistics : Bool} (st : St)
    (hpop : populated dataVersion providerStatistics st.cache) :
    fetch_phase server dataVersion providerStatistics st = (st, none) := by
  obtain ⟨ds, hds, hall⟩ := hpop
  have hfile : st.cache.isFile
      (pathJoin (pathJoin DATA_DIR dataVersion) DISTRICTS_FILENAME) = true := by
    simp [Cache.isFile, districtsPathOf] at hds ⊢
    rw [hds]; rfl
  rw [districtsPathOf] at hds
  simp only [fetch_phase, hfile, if_pos, parse_districts_of_lookup hds]
  exact districts_loop_skip ds st hall

/-- C1: for every run started against a cache fully populated by a prior
successful fetch phase (districts file, each district's providers file, each
requested stats file, and each district's ranking-properties file all
present), the fetch phase issues zero network calls: the call log is left
exactly as it was, every resource access takes the cache-hit branch, no
download function is invoked (each download appends to the call log, so an
unchanged log means none ran), and the cache is unchanged. -/
theorem fetch_phase_idempotent {server : Server} {dataVersion : String}
    {providerStatistics : Bool} {st st1 : St}
    (h : fetch_phase server dataVersion providerStatistics st = (st1, none))
    (calls0 : List Request) :
    fetch_phase server dataVersion providerStatistics ⟨st1.cache, calls0⟩
      = (⟨st1.cache, calls0⟩, none) :=
  fetch_phase_skip (⟨st1.cache, calls0⟩ : St)
    (show populated dataVersion providerStatistics st1.cache from
      fetch_phase_populated h)

/-- Witness for C1: a concrete healthy server, an empty starting cache, and
the provider-statistics flag on; the second fetch phase is a no-op. -/
theorem fetch_phase_idempotent_witness :
    fetch_phase serverW "jun2014" true
        ⟨(fetch_phase serverW "jun2014" true ⟨[], []⟩).1.cache, []⟩
      = (⟨(fetch_phase serverW "jun2014" true ⟨[], []⟩).1.cache, []⟩, none) :=
  @fetch_phase_idempotent serverW "jun2014" true ⟨[], []⟩
    (fetch_phase serverW "jun2014" true ⟨[], []⟩).1 (by decide) []

theorem ranking_path_inj {dir a b : String}
    (h : pathJoin dir (RANKING_PROPERTIES_FILENAME a)
       = pathJoin dir (RANKING_PROPERTIES_FILENAME b)) : a = b := by
  have h2 := congrArg String.data h
  simp only [pathJoin, RANKING_PROPERTIES_FILENAME, String.data_append,
    List.append_assoc] at h2
  exact String.ext (List.append_cancel_right
    (List.append_cancel_left (List.append_cancel_left (List.append_cancel_left h2))))

theorem process_ranking_entry_ok_cases {dir : String} {m : List (String × String)}
    {cache cache1 : Cache} {x : JsonObj}
    (h : process_ranking_entry dir m cache x = (cache1, none)) :
    ∃ name, entry_key m x = some name ∧
      ((cache.isFile (pathJoin dir (RANKING_PROPERTIES_FILENAME name)) = true ∧
        cache1 = cache) ∨
       (cache.isFile (pathJoin dir (RANKING_PROPERTIES_FILENAME name)) = false ∧
        cache1 = cache.write (pathJoin dir (RANKING_PROPERTIES_FILENAME name))
          (FileData.ranking x))) := by
  simp only [process_ranking_entry] at h
  split at h
  · cases h
  · next gname hg =>
    split at h
    · cases h
    · next sid hs =>
      split at h
      · cases h
      · next abbr hf =>
        refine ⟨abbr ++ "-" ++ Json.format gname, by simp [entry_key, hg, hs, hf], ?_⟩
        split at h
        · next hfile => cases h; exact Or.inl ⟨hfile, rfl⟩
        · next hfile => cases h; exact Or.inr ⟨by simpa using hfile, rfl⟩

theorem process_entries_first_write {dir : String} {m : List (String × String)}
    (entries : List JsonObj) :
    ∀ {cache cache' : Cache} {D : String} {x : JsonObj},
      process_ranking_entries dir m cache entries = (cache', none) →
      alookup cache (pathJoin dir (RANKING_PROPERTIES_FILENAME D)) = none →
      entries.find? (fun y => entry_key m y == some D) = some x →
      alookup cache' (pathJoin dir (RANKING_PROPERTIES_FILENAME D))
        = some (FileData.ranking x) := by
  induction entries with
  | nil => intro cache cache' D x h habs hf; simp at hf
  | cons y rest ih =>
    intro cache cache' D x h habs hf
    simp only [process_ranking_entries] at h
    split at h
    · next cache1 heq =>
      obtain ⟨name, hname, hcases⟩ := process_ranking_entry_ok_cases heq
      by_cases hpred : (entry_key m y == some D) = true
      · simp only [List.find?, hpred, Option.some.injEq] at hf
        subst hf
        have hD : name = D := by
          rw [hname] at hpred
          simpa using hpred
        subst hD
        rcases hcases with ⟨hfile, rfl⟩ | ⟨hfile, rfl⟩
        · rw [isFile_false_iff.mpr habs] at hfile; cases hfile
        · exact process_ranking_entries_preserves rest h _ _ (alookup_write_self ..)
      · have hpred' : (entry_key m y == some D) = false := by simpa using hpred
        simp only [List.find?, hpred'] at hf
        have hne : name ≠ D := by
          intro hcontra
          subst hcontra
          exact hpred (by simp [hname])
        have habs1 : alookup cache1
            (pathJoin dir (RANKING_PROPERTIES_FILENAME D)) = none := by
          rcases hcases with ⟨_, rfl⟩ | ⟨_, rfl⟩
          · exact habs
          · rw [alookup_write, if_neg fun hpp => hne (ranking_path_inj hpp).symm]
            exact habs
        exact ih h habs1 hf
    · cases h

/-- C2: download_ranking_properties iterates the four ranking buckets in the
source order FirstTen, myArea, LastTen, All (their concatenation,
all_buckets), and writes a district entry to that district's
ranking-properties file only if the file does not already exist.  Hence
(i) a file present before the call keeps its exact content — a later bucket
mention, or a later anchor call, never overwrites it — and (ii) when
district D's file was absent, the value cached for D is the first entry of
the bucket concatenation whose computed identity key is D. -/
theorem ranking_first_writer_wins {server : Server}
    {dataVersion data_version_dir state_id district_id : String}
    {m : List (String × String)} {st st' : St}
    (h : download_ranking_properties server dataVersion data_version_dir state_id
      district_id m st = (st', none)) :
    (∀ p v, alookup st.cache p = some v → alookup st'.cache p = some v) ∧
    (∀ D x,
      alookup st.cache
        (pathJoin data_version_dir (RANKING_PROPERTIES_FILENAME D)) = none →
      (all_buckets (server.ranking dataVersion state_id district_id).results).find?
        (fun y => entry_key m y == some D) = some x →
      alookup st'.cache
        (pathJoin data_version_dir (RANKING_PROPERTIES_FILENAME D))
        = some (FileData.ranking x)) := by
  refine ⟨fun p v hv => download_ranking_properties_preserves h p v hv, ?_⟩
  intro D x habs hf
  simp only [download_ranking_properties] at h
  split at h
  · injection h with h1 h2
    subst h1
    exact process_entries_first_write _ (Prod.ext rfl h2) habs
      (by simpa [all_buckets] using hf)
  · injection h with h1 h2
    exact Option.noConfusion h2

/-- Witness for C2: AL-1's entry is listed in the FirstTen bucket of the
concrete server's response, its file is absent, and the call caches exactly
that entry for AL-1. -/
theorem ranking_first_writer_wins_witness :
    alookup (download_ranking_properties serverW "jun2014" dirW "01" "g1"
        (build_state_lookup [dAL1, dTX5]) ⟨[], []⟩).1.cache
      (pathJoin dirW (RANKING_PROPERTIES_FILENAME "AL-1"))
      = some (FileData.ranking (entryW dAL1)) :=
  (@ranking_first_writer_wins serverW "jun2014" dirW "01" "g1"
      (build_state_lookup [dAL1, dTX5]) ⟨[], []⟩
      (download_ranking_properties serverW "jun2014" dirW "01" "g1"
        (build_state_lookup [dAL1, dTX5]) ⟨[], []⟩).1
      (by decide)).2 "AL-1" (entryW dAL1) (by decide) (by decide)

/-- C4: for each of the four download operations, a response envelope whose
status field is not "OK" makes the operation return the raised ApiError
carrying the server-supplied message verbatim, with the cache left exactly
as it was (no file written for that call).  Every caller of these operations
propagates a some-error result unchanged, so the error aborts the run with
no retry. -/
theorem download_non_ok_fatal {server : Server}
    {dataVersion data_version_dir state_id district_id provider_id file_path : String}
    {m : List (String × String)} (st : St) :
    (server.districts.status ≠ some "OK" →
      download_districts server file_path st
        = ({ st with calls := st.calls ++ [Request.districts] },
           some (Err.apiError "Downloading congressional districts failed"
             server.districts.message))) ∧
    ((server.providerList dataVersion state_id district_id).status ≠ some "OK" →
      download_provider_list server dataVersion state_id district_id file_path st
        = ({ st with calls :=
              st.calls ++ [Request.providerList dataVersion state_id district_id] },
           some (Err.apiError "Downloading provider list failed"
             (server.providerList dataVersion state_id district_id).message))) ∧
    ((server.providerStats dataVersion state_id district_id provider_id).status
        ≠ some "OK" →
      download_provider_stats server dataVersion state_id district_id provider_id
          file_path st
        = ({ st with calls :=
              st.calls ++ [Request.providerStats dataVersion state_id district_id provider_id] },
           some (Err.apiError "Downloading provider statistics failed"
             (server.providerStats dataVersion state_id district_id provider_id).message))) ∧
    ((server.ranking dataVersion state_id district_id).status ≠ some "OK" →
      download_ranking_properties server dataVersion data_version_dir state_id
          district_id m st
        = ({ st with calls :=
              st.calls ++ [Request.ranking dataVersion state_id district_id] },
           some (Err.apiError "Downloading provider statistics failed"
             (server.ranking dataVersion state_id district_id).message))) := by
  refine ⟨fun hne => ?_, fun hne => ?_, fun hne => ?_, fun hne => ?_⟩
  · simp [download_districts, hne]
  · simp [download_provider_list, hne]
  · simp [download_provider_stats, hne]
  · simp [download_ranking_properties, hne]

/-- Witness for C4: the four operations against a server whose every answer
has a non-OK status, each returning the ApiError with the server message and
an unchanged (empty) cache. -/
theorem download_non_ok_fatal_witness :
    download_districts serverBad "data/jun2014/districts.json" ⟨[], []⟩
      = (⟨[], [Request.districts]⟩,
         some (Err.apiError "Downloading congressional districts failed"
           (some "down for maintenance"))) ∧
    download_provider_list serverBad "jun2014" "01" "g1" "p" ⟨[], []⟩
      = (⟨[], [Request.providerList "jun2014" "01" "g1"]⟩,
         some (Err.apiError "Downloading provider list failed" (some "no status"))) ∧
    download_provider_stats serverBad "jun2014" "01" "g1" "p1" "q" ⟨[], []⟩
      = (⟨[], [Request.providerStats "jun2014" "01" "g1" "p1"]⟩,
         some (Err.apiError "Downloading provider statistics failed"
           (some "try later"))) ∧
    download_ranking_properties serverBad "jun2014" "data/jun2014" "01" "g1" [] ⟨[], []⟩
      = (⟨[], [Request.ranking "jun2014" "01" "g1"]⟩,
         some (Err.apiError "Downloading provider statistics failed"
           (some "bad request"))) := by
  have h := @download_non_ok_fatal serverBad "jun2014" "data/jun2014" "01" "g1" "p1"
    "data/jun2014/districts.json" [] ⟨[], []⟩
  refine ⟨?_, ?_, ?_, ?_⟩
  · exact h.1 (by decide)
  · exact h.2.1 (by decide)
  · exact h.2.2.1 (by decide)
  · exact h.2.2.2 (by decide)

/-- C3: the ranking step never succeeds while leaving the anchor district's
ranking-properties file absent: (i) on success the file exists afterwards;
(ii) if the file was missing before the ranking call, the call itself
succeeded, and the file is still missing afterwards (the anchor did not
appear in any of the four buckets of its own response), the step fails with
the reported rankingMissing inconsistency for that district. -/
theorem ranking_anchor_consistency {server : Server}
    {dataVersion data_version_dir state_id district_id district_name : String}
    {m : List (String × String)} {st : St} :
    (∀ st' : St,
      ranking_step server dataVersion data_version_dir state_id district_id
        district_name m st = (st', none) →
      st'.cache.isFile
        (pathJoin data_version_dir
          (RANKING_PROPERTIES_FILENAME district_name)) = true) ∧
    (∀ st1 : St,
      st.cache.isFile
        (pathJoin data_version_dir
          (RANKING_PROPERTIES_FILENAME district_name)) = false →
      download_ranking_properties server dataVersion data_version_dir state_id
        district_id m st = (st1, none) →
      st1.cache.isFile
        (pathJoin data_version_dir
          (RANKING_PROPERTIES_FILENAME district_name)) = false →
      ranking_step server dataVersion data_version_dir state_id district_id
        district_name m st = (st1, some (Err.rankingMissing district_name))) := by
  constructor
  · intro st' h
    simpa [Cache.isFile] using ranking_step_done h
  · intro st1 habs hdl hstill
    simp [ranking_step, habs, hdl, hstill]

/-- Witness for C3: a server whose ranking response is empty, so the anchor
district AL-1 is never written and the step reports the inconsistency. -/
theorem ranking_anchor_consistency_witness :
    ranking_step serverNoAnchor "jun2014" dirW "01" "g1" "AL-1"
        (build_state_lookup [dAL1]) ⟨[], []⟩
      = (⟨[], [Request.ranking "jun2014" "01" "g1"]⟩,
         some (Err.rankingMissing "AL-1")) :=
  (@ranking_anchor_consistency serverNoAnchor "jun2014" dirW "01" "g1" "AL-1"
      (build_state_lookup [dAL1]) ⟨[], []⟩).2
    ⟨[], [Request.ranking "jun2014" "01" "g1"]⟩ (by decide) (by decide) (by decide)

theorem build_state_lookup_aux (ds : List District) :
    ∀ (m : List (String × String)) (k : String),
      (alookup (ds.foldl
        (fun m d => (d.stateFips, d.stateAbbreviation) :: m) m) k).isSome = true ↔
        (∃ d ∈ ds, d.stateFips = k) ∨ (alookup m k).isSome = true := by
  induction ds with
  | nil => intro m k; simp
  | cons d rest ih =>
    intro m k
    simp only [List.foldl_cons]
    rw [ih]
    have hcons : (alookup ((d.stateFips, d.stateAbbreviation) :: m) k).isSome = true ↔
        k = d.stateFips ∨ (alookup m k).isSome = true := by
      by_cases hk : k = d.stateFips
      · simp [alookup, hk]
      · simp [alookup, hk]
    rw [hcons]
    simp only [List.mem_cons]
    constructor
    · rintro (⟨d', hd', hfips⟩ | hk | hm)
      · exact Or.inl ⟨d', Or.inr hd', hfips⟩
      · exact Or.inl ⟨d, Or.inl rfl, hk.symm⟩
      · exact Or.inr hm
    · rintro (⟨d', rfl | hd', hfips⟩ | hm)
      · exact Or.inr (Or.inl hfips.symm)
      · exact Or.inl ⟨d', hd', hfips⟩
      · exact Or.inr (Or.inr hm)

theorem build_state_lookup_isSome {ds : List District} {k : String} :
    (alookup (build_state_lookup ds) k).isSome = true ↔
      ∃ d ∈ ds, d.stateFips = k := by
  rw [build_state_lookup, build_state_lookup_aux]
  simp [alookup]

theorem build_state_lookup_none {ds : List District} {k : String} :
    alookup (build_state_lookup ds) k = none ↔ ∀ d ∈ ds, d.stateFips ≠ k := by
  constructor
  · intro hnone d hd hfips
    have hs : (alookup (build_state_lookup ds) k).isSome = true :=
      build_state_lookup_isSome.mpr ⟨d, hd, hfips⟩
    rw [hnone] at hs; cases hs
  · intro hall
    rcases halk : alookup (build_state_lookup ds) k with _ | v
    · rfl
    · obtain ⟨d, hd, hfips⟩ := (@build_state_lookup_isSome ds k).mp (by simp [halk])
      exact absurd hfips (hall d hd)

theorem process_entries_ok {dir : String} {m : List (String × String)}
    (entries : List JsonObj) :
    ∀ (cache : Cache),
      (∀ e ∈ entries, (alookup e "geographyName").isSome = true ∧
        ∃ fips, alookup e "stateFips" = some (Json.s fips) ∧
          (alookup m fips).isSome = true) →
      (process_ranking_entries dir m cache entries).2 = none := by
  induction entries with
  | nil => intro cache hall; simp [process_ranking_entries]
  | cons y rest ih =>
    intro cache hall
    obtain ⟨hg, fips, hs, hm⟩ := hall y (List.mem_cons_self ..)
    obtain ⟨gname, hgname⟩ := Option.isSome_iff_exists.mp hg
    obtain ⟨abbr, habbr⟩ := Option.isSome_iff_exists.mp hm
    have hstep : (process_ranking_entry dir m cache y).2 = none := by
      simp only [process_ranking_entry, hgname, hs, fips_lookup, habbr]
      split <;> rfl
    simp only [process_ranking_entries]
    rw [show process_ranking_entry dir m cache y
        = ((process_ranking_entry dir m cache y).1, none) from Prod.ext rfl hstep]
    exact ih _ fun e he => hall e (List.mem_cons_of_mem _ he)

theorem process_entries_keyerror {dir : String} {m : List (String × String)}
    (entries : List JsonObj) :
    ∀ (cache : Cache),
      (∀ e ∈ entries, (alookup e "geographyName").isSome = true ∧
        ∃ fips, alookup e "stateFips" = some (Json.s fips)) →
      (∃ e ∈ entries, ∃ fips, alookup e "stateFips" = some (Json.s fips) ∧
        alookup m fips = none) →
      ∃ fips, alookup m fips = none ∧
        (process_ranking_entries dir m cache entries).2
          = some (Err.keyError fips) := by
  induction entries with
  | nil => intro cache hkeys hex; simp at hex
  | cons y rest ih =>
    intro cache hkeys hex
    obtain ⟨hg, fips, hs⟩ := hkeys y (List.mem_cons_self ..)
    obtain ⟨gname, hgname⟩ := Option.isSome_iff_exists.mp hg
    by_cases hm : alookup m fips = none
    · refine ⟨fips, hm, ?_⟩
      have hentry : process_ranking_entry dir m cache y
          = (cache, some (Err.keyError fips)) := by
        simp [process_ranking_entry, hgname, hs, fips_lookup, hm, Json.format]
      simp [process_ranking_entries, hentry]
    · obtain ⟨abbr, habbr⟩ := Option.isSome_iff_exists.mp
        (Option.isSome_iff_ne_none.mpr hm)
      have hstep : (process_ranking_entry dir m cache y).2 = none := by
        simp only [process_ranking_entry, hgname, hs, fips_lookup, habbr]
        split <;> rfl
      simp only [process_ranking_entries]
      rw [show process_ranking_entry dir m cache y
          = ((process_ranking_entry dir m cache y).1, none) from Prod.ext rfl hstep]
      have hex2 : ∃ e ∈ rest, ∃ fips2, alookup e "stateFips" = some (Json.s fips2) ∧
          alookup m fips2 = none := by
        obtain ⟨e, he, fips2, hs2, hm2⟩ := hex
        rcases List.mem_cons.mp he with rfl | he2
        · rw [hs] at hs2
          injection hs2 with hs3
          injection hs3 with hs4
          exact absurd (hs4 ▸ hm2) hm
        · exact ⟨e, he2, fips2, hs2, hm2⟩
      exact ih _ (fun e he => hkeys e (List.mem_cons_of_mem _ he)) hex2

/-- C10: every district entry in every bucket of a ranking response has its
stateFips resolved through an unguarded lookup into the stateFips-to-
stateAbbreviation map built from the cached district list.  (i) When every
stateFips appearing in the response occurs in the district list, the lookup
never fails and the whole call succeeds; (ii) when the response mentions a
stateFips absent from the district list, the call raises the KeyError for
such a fips (aborting the run) rather than skipping the entry. -/
theorem ranking_fips_lookup_safety {server : Server}
    {dataVersion data_version_dir state_id district_id : String}
    {ds : List District} (st : St)
    (hok : (server.ranking dataVersion state_id district_id).status = some "OK")
    (hkeys : entries_have_keys
      (all_buckets (server.ranking dataVersion state_id district_id).results)) :
    ((∀ e ∈ all_buckets (server.ranking dataVersion state_id district_id).results,
        ∀ fips, alookup e "stateFips" = some (Json.s fips) →
          ∃ d ∈ ds, d.stateFips = fips) →
      (download_ranking_properties server dataVersion data_version_dir state_id
        district_id (build_state_lookup ds) st).2 = none) ∧
    ((∃ e ∈ all_buckets (server.ranking dataVersion state_id district_id).results,
        ∃ fips, alookup e "stateFips" = some (Json.s fips) ∧
          ∀ d ∈ ds, d.stateFips ≠ fips) →
      ∃ fips, (∀ d ∈ ds, d.stateFips ≠ fips) ∧
        (download_ranking_properties server dataVersion data_version_dir state_id
          district_id (build_state_lookup ds) st).2
          = some (Err.keyError fips)) := by
  constructor
  · intro hall
    simp only [download_ranking_properties, hok, if_pos]
    apply process_entries_ok
    intro e he
    obtain ⟨hg, fips, hs⟩ := hkeys e (by simpa [all_buckets] using he)
    refine ⟨hg, fips, hs, ?_⟩
    rw [build_state_lookup_isSome]
    exact hall e (by simpa [all_buckets] using he) fips hs
  · intro hex
    obtain ⟨e, he, fips0, hs0, hm0⟩ := hex
    have hkey :
        ∃ fips, alookup (build_state_lookup ds) fips = none ∧
          (process_ranking_entries data_version_dir (build_state_lookup ds) st.cache
            ((server.ranking dataVersion state_id district_id).results.firstTen ++
              (server.ranking dataVersion state_id district_id).results.myArea ++
              (server.ranking dataVersion state_id district_id).results.lastTen ++
              (server.ranking dataVersion state_id district_id).results.allList)).2
            = some (Err.keyError fips) := by
      apply process_entries_keyerror
      · intro x hx
        obtain ⟨hg, fips, hs⟩ := hkeys x (by simpa [all_buckets] using hx)
        exact ⟨hg, fips, hs⟩
      · exact ⟨e, by simpa [all_buckets] using he, fips0, hs0,
          build_state_lookup_none.mpr hm0⟩
    obtain ⟨fips, hfm, hproc⟩ := hkey
    refine ⟨fips, build_state_lookup_none.mp hfm, ?_⟩
    simp only [download_ranking_properties, hok, if_pos]
    exact hproc

/-- Witness for C10: with the concrete district list (AL, TX) every stateFips
in the concrete ranking response is known, so the call succeeds. -/
theorem ranking_fips_lookup_safety_witness :
    (download_ranking_properties serverW "jun2014" dirW "01" "g1"
      (build_state_lookup [dAL1, dTX5]) ⟨[], []⟩).2 = none :=
  (@ranking_fips_lookup_safety serverW "jun2014" dirW "01" "g1" [dAL1, dTX5]
    ⟨[], []⟩ (by decide)
    (by
      intro e he
      simp only [all_buckets, serverW, List.append_nil, List.mem_cons,
        List.not_mem_nil, or_false] at he
      rcases he with rfl | rfl
      · exact ⟨by decide, "01", by decide⟩
      · exact ⟨by decide, "48", by decide⟩)).1
    (by
      intro e he fips hfips
      simp only [all_buckets, serverW, List.append_nil, List.mem_cons,
        List.not_mem_nil, or_false] at he
      rcases he with rfl | rfl
      · rw [show alookup (entryW dAL1) "stateFips" = some (Json.s "01") from by decide]
          at hfips
        injection hfips with h1
        injection h1 with h2
        exact ⟨dAL1, by simp, h2⟩
      · rw [show alookup (entryW dTX5) "stateFips" = some (Json.s "48") from by decide]
          at hfips
        injection hfips with h1
        injection h1 with h2
        exact ⟨dTX5, by simp, h2⟩)

theorem pathJoin_right_inj {dir a b : String}
    (h : pathJoin dir a = pathJoin dir b) : a = b := by
  have h2 := congrArg String.data h
  simp only [pathJoin, String.data_append, List.append_assoc] at h2
  exact String.ext (List.append_cancel_left (List.append_cancel_left h2))

theorem append_json_ne_csv (a b : String) : a ++ ".json" ≠ b ++ ".csv" := by
  intro h
  have h2 : (a ++ ".json").data.getLast? = (b ++ ".csv").data.getLast? := by rw [h]
  rw [String.data_append, String.data_append, List.getLast?_append,
    List.getLast?_append,
    show (".json".data.getLast?) = some 'n' from by decide,
    show (".csv".data.getLast?) = some 'v' from by decide] at h2
  have h3 : (some 'n' : Option Char) = some 'v' := h2
  exact absurd h3 (by decide)

theorem resource_path_ne_csv {data_version_dir p : String}
    (h : is_resource_path data_version_dir p) :
    p ≠ csvPathOf data_version_dir := by
  intro hcontra
  have hsum : ("summary.csv" : String) = "summary" ++ ".csv" := by decide
  rcases h with h | ⟨name, h⟩ | ⟨name, pid, h⟩ | ⟨name, h⟩ <;> subst h <;>
    simp only [districtsPathOf, csvPathOf, DISTRICTS_FILENAME, CSV_FILENAME,
      PROVIDERS_FILENAME, STATS_FILENAME, RANKING_PROPERTIES_FILENAME] at hcontra
  · exact absurd (pathJoin_right_inj hcontra) (by decide)
  · exact absurd ((pathJoin_right_inj hcontra).trans hsum)
      (append_json_ne_csv ("providers-" ++ name) "summary")
  · exact absurd ((pathJoin_right_inj hcontra).trans hsum)
      (append_json_ne_csv ("stats-" ++ name ++ "-" ++ pid) "summary")
  · exact absurd ((pathJoin_right_inj hcontra).trans hsum)
      (append_json_ne_csv ("ranking-properties-" ++ name) "summary")

/-- C8: throughout any run, every write of one of the four cached resource
kinds (districts list, provider lists, provider stats, ranking properties)
is gated by a presence check on that file's path, so a resource file present
in the cache when the run starts — equivalently, at any intermediate state
from which the rest of the run proceeds — is still present with the same
content when the run ends, whether the run succeeds or aborts.  Presence
alone gates re-fetch: no content validation appears in any branch. -/
theorem cache_files_immutable {server : Server} {dataVersion : String}
    {providerStatistics : Bool} {st st' : St} {e : Option Err}
    {p : String} {v : FileData}
    (hres : is_resource_path (pathJoin DATA_DIR dataVersion) p)
    (hv : alookup st.cache p = some v)
    (h : main_run server dataVersion providerStatistics st = (st', e)) :
    alookup st'.cache p = some v :=
  main_run_preserves_noncsv (resource_path_ne_csv hres) hv h

/-- Witness for C8: a pre-existing AL-1 ranking-properties file with marker
content survives a full run against a healthy server unchanged. -/
theorem cache_files_immutable_witness :
    alookup (main_run serverW "jun2014" false ⟨cacheW8, []⟩).1.cache
      (rankingPathOf dirW dAL1)
      = some (FileData.ranking [("marker", Json.s "old")]) :=
  @cache_files_immutable serverW "jun2014" false ⟨cacheW8, []⟩
    (main_run serverW "jun2014" false ⟨cacheW8, []⟩).1
    (main_run serverW "jun2014" false ⟨cacheW8, []⟩).2
    (rankingPathOf dirW dAL1) (FileData.ranking [("marker", Json.s "old")])
    (Or.inr (Or.inr (Or.inr ⟨"AL-1", by decide⟩))) (by decide) rfl

theorem districts_path_ne_csv (dir : String) :
    pathJoin dir DISTRICTS_FILENAME ≠ pathJoin dir CSV_FILENAME :=
  fun hc => absurd (pathJoin_right_inj hc) (by decide)

theorem ranking_path_ne_csv (dir name : String) :
    pathJoin dir (RANKING_PROPERTIES_FILENAME name) ≠ pathJoin dir CSV_FILENAME :=
  fun hc => absurd
    ((pathJoin_right_inj hc).trans
      (by decide : (CSV_FILENAME : String) = "summary" ++ ".csv"))
    (append_json_ne_csv ("ranking-properties-" ++ name) "summary")

theorem alookup_write_csv_ranking {dir : String} (cache : Cache)
    (rows : List (List String)) (name : String) :
    alookup (cache.write (pathJoin dir CSV_FILENAME) (FileData.csv rows))
      (pathJoin dir (RANKING_PROPERTIES_FILENAME name))
      = alookup cache (pathJoin dir (RANKING_PROPERTIES_FILENAME name)) := by
  rw [alookup_write, if_neg (ranking_path_ne_csv dir name)]

theorem charlist_lt_trans : ∀ (as bs cs : List Char),
    charlist_lt as bs = true → charlist_lt bs cs = true →
    charlist_lt as cs = true := by
  intro as
  induction as with
  | nil =>
    intro bs cs h1 h2
    cases bs with
    | nil => simp [charlist_lt] at h1
    | cons b bs2 =>
      cases cs with
      | nil => simp [charlist_lt] at h2
      | cons c cs2 => simp [charlist_lt]
  | cons a as2 ih =>
    intro bs cs h1 h2
    cases bs with
    | nil => simp [charlist_lt] at h1
    | cons b bs2 =>
      cases cs with
      | nil => simp [charlist_lt] at h2
      | cons c cs2 =>
        simp only [charlist_lt] at h1 h2 ⊢
        split at h1
        · next hab =>
          split at h2
          · next hbc => rw [if_pos (Nat.lt_trans hab hbc)]
          · next hbc =>
            split at h2
            · cases h2
            · next hcb => rw [if_pos (by omega)]
        · next hab =>
          split at h1
          · cases h1
          · next hba =>
            split at h2
            · next hbc => rw [if_pos (by omega)]
            · next hbc =>
              split at h2
              · cases h2
              · next hcb =>
                rw [if_neg (by omega), if_neg (by omega)]
                exact ih bs2 cs2 h1 h2

theorem charlist_lt_asymm : ∀ (as bs : List Char),
    charlist_lt as bs = true → charlist_lt bs as = false := by
  intro as
  induction as with
  | nil =>
    intro bs h1
    cases bs with
    | nil => simp [charlist_lt] at h1
    | cons b bs2 => simp [charlist_lt]
  | cons a as2 ih =>
    intro bs h1
    cases bs with
    | nil => simp [charlist_lt] at h1
    | cons b bs2 =>
      simp only [charlist_lt] at h1 ⊢
      split at h1
      · next hab => rw [if_neg (by omega), if_pos (by omega)]
      · next hab =>
        split at h1
        · cases h1
        · next hba =>
          rw [if_neg (by omega), if_neg (by omega)]
          exact ih bs2 h1

theorem charlist_eq_of_not_lt : ∀ (as bs : List Char),
    charlist_lt as bs = false → charlist_lt bs as = false → as = bs := by
  intro as
  induction as with
  | nil =>
    intro bs h1 h2
    cases bs with
    | nil => rfl
    | cons b bs2 => simp [charlist_lt] at h1
  | cons a as2 ih =>
    intro bs h1 h2
    cases bs with
    | nil => simp [charlist_lt] at h2
    | cons b bs2 =>
      simp only [charlist_lt] at h1 h2
      split at h1
      · cases h1
      · next hab =>
        split at h1
        · next hba =>
          rw [if_pos hba] at h2
          cases h2
        · next hba =>
          rw [if_neg (by omega), if_neg (by omega)] at h2
          have htn : a.toNat = b.toNat := by omega
          have hcval : a = b := Char.ext (UInt32.toNat.inj htn)
          rw [hcval, ih bs2 h1 h2]

theorem charlist_nlt_trans (as bs cs : List Char)
    (h1 : charlist_lt bs as = false) (h2 : charlist_lt cs bs = false) :
    charlist_lt cs as = false := by
  rcases hca : charlist_lt cs as with _ | _
  · rfl
  · exfalso
    rcases hab : charlist_lt as bs with _ | _
    · rw [charlist_eq_of_not_lt as bs hab h1] at hca
      rw [hca] at h2
      cases h2
    · have h3 := charlist_lt_trans cs as bs hca hab
      rw [h3] at h2
      cases h2

theorem district_le_trans :
    ∀ (a b c : District), district_le a b → district_le b c → district_le a c := by
  intro a b c h1 h2
  simp only [district_le, key_le, district_sort_key, Bool.or_eq_true,
    Bool.and_eq_true, beq_iff_eq, str_lt, str_le, Bool.not_eq_true'] at h1 h2 ⊢
  rcases h1 with h1 | ⟨h1e, h1le⟩ <;> rcases h2 with h2 | ⟨h2e, h2le⟩
  · exact Or.inl (charlist_lt_trans _ _ _ h1 h2)
  · exact Or.inl (h2e ▸ h1)
  · exact Or.inl (h1e ▸ h2)
  · exact Or.inr ⟨h1e.trans h2e, charlist_nlt_trans _ _ _ h1le h2le⟩

theorem district_le_total :
    ∀ (a b : District), district_le a b || district_le b a := by
  intro a b
  simp only [district_le, key_le, district_sort_key, Bool.or_eq_true,
    Bool.and_eq_true, beq_iff_eq, str_lt, str_le, Bool.not_eq_true']
  rcases h1 : charlist_lt a.stateAbbreviation.data b.stateAbbreviation.data with _ | _
  · rcases h2 : charlist_lt b.stateAbbreviation.data a.stateAbbreviation.data with _ | _
    · have heq : a.stateAbbreviation = b.stateAbbreviation :=
        String.ext (charlist_eq_of_not_lt _ _ h1 h2)
      rcases h3 : charlist_lt b.geographyName.data a.geographyName.data with _ | _
      · exact Or.inl (Or.inr ⟨heq, rfl⟩)
      · exact Or.inr (Or.inr ⟨heq.symm, charlist_lt_asymm _ _ h3⟩)
    · exact Or.inr (Or.inl rfl)
  · exact Or.inl (Or.inl rfl)

theorem get_fields_ok {properties : JsonObj} (fields : List String) :
    ∀ {vs : List Json}, get_fields properties fields = Except.ok vs →
      ∀ field ∈ fields, (alookup properties field).isSome = true := by
  induction fields with
  | nil => intro vs h field hf; cases hf
  | cons f rest ih =>
    intro vs h field hf
    simp only [get_fields] at h
    split at h
    · cases h
    · next v hv =>
      split at h
      · next vs' heq =>
        rcases List.mem_cons.mp hf with rfl | hf'
        · simp [hv]
        · exact ih heq field hf'
      · cases h

theorem get_fields_total {properties : JsonObj} (fields : List String)
    (hall : ∀ field ∈ fields, (alookup properties field).isSome = true) :
    ∃ vs, get_fields properties fields = Except.ok vs := by
  induction fields with
  | nil => exact ⟨[], rfl⟩
  | cons f rest ih =>
    obtain ⟨v, hv⟩ := Option.isSome_iff_exists.mp (hall f (List.mem_cons_self ..))
    obtain ⟨vs, hvs⟩ := ih fun field hf => hall field (List.mem_cons_of_mem _ hf)
    exact ⟨v :: vs, by simp [get_fields, hv, hvs]⟩

theorem make_row_ok {district_name : String} {properties : JsonObj}
    {row : List String}
    (h : make_row district_name properties = Except.ok row) :
    ∃ vs, get_fields properties RANKING_PROPERTIES_JSON = Except.ok vs ∧
      row = district_name :: vs.map Json.format := by
  unfold make_row at h
  split at h
  · next vs heq => cases h; exact ⟨vs, heq, rfl⟩
  · cases h

theorem make_row_total (district_name : String) {properties : JsonObj}
    (hall : ∀ field ∈ RANKING_PROPERTIES_JSON,
      (alookup properties field).isSome = true) :
    ∃ row, make_row district_name properties = Except.ok row := by
  obtain ⟨vs, hvs⟩ := get_fields_total _ hall
  exact ⟨district_name :: vs.map Json.format, by simp [make_row, hvs]⟩

theorem parse_districts_none {cache : Cache} {path : String}
    (h : alookup cache path = none) :
    parse_districts cache path = Except.error (Err.fileNotFound path) := by
  unfold parse_districts
  rw [h]

theorem csv_rows_loop_content {dir : String} (districts : List District) :
    ∀ {cache cache' : Cache} {rows : List (List String)},
      csv_rows_loop dir (pathJoin dir CSV_FILENAME) cache rows districts
        = (cache', none) →
      alookup cache (pathJoin dir CSV_FILENAME) = some (FileData.csv rows) →
      ∃ rows',
        alookup cache' (pathJoin dir CSV_FILENAME)
          = some (FileData.csv (rows ++ rows')) ∧
        rows'.map (fun r => r.head?)
          = districts.map (fun d => some (district_display_name d)) := by
  induction districts with
  | nil =>
    intro cache cache' rows h hcur
    simp only [csv_rows_loop] at h
    cases h
    exact ⟨[], by simpa using hcur, rfl⟩
  | cons d rest ih =>
    intro cache cache' rows h hcur
    simp only [csv_rows_loop] at h
    split at h
    · cases h
    · next properties heq =>
      split at h
      · cases h
      · next row hrow =>
        obtain ⟨rows', hlook, hnames⟩ := ih h (alookup_write_self ..)
        obtain ⟨vs, hvs, hroweq⟩ := make_row_ok hrow
        refine ⟨row :: rows', by simpa [List.append_assoc] using hlook, ?_⟩
        simp only [List.map_cons, hnames, List.cons.injEq]
        exact ⟨by rw [hroweq]; rfl, trivial⟩
    · cases h

theorem csv_rows_loop_all_present {dir : String} (districts : List District) :
    ∀ {cache cache' : Cache} {rows : List (List String)},
      csv_rows_loop dir (pathJoin dir CSV_FILENAME) cache rows districts
        = (cache', none) →
      ∀ d ∈ districts, ∃ obj,
        alookup cache (pathJoin dir (RANKING_PROPERTIES_FILENAME
          (district_display_name d))) = some (FileData.ranking obj) ∧
        ∀ field ∈ RANKING_PROPERTIES_JSON, (alookup obj field).isSome = true := by
  induction districts with
  | nil => intro cache cache' rows h d hd; cases hd
  | cons d0 rest ih =>
    intro cache cache' rows h d hd
    simp only [csv_rows_loop] at h
    split at h
    · cases h
    · next properties heq =>
      split at h
      · cases h
      · next row hrow =>
        rcases List.mem_cons.mp hd with rfl | hd'
        · obtain ⟨vs, hvs, _⟩ := make_row_ok hrow
          exact ⟨properties, heq, get_fields_ok _ hvs⟩
        · obtain ⟨obj, hobj, hfields⟩ := ih h d hd'
          rw [alookup_write_csv_ranking] at hobj
          exact ⟨obj, hobj, hfields⟩
    · cases h

theorem csv_rows_loop_csv_extends {dir : String} (districts : List District) :
    ∀ {cache cache' : Cache} {rows : List (List String)} {e : Option Err},
      csv_rows_loop dir (pathJoin dir CSV_FILENAME) cache rows districts
        = (cache', e) →
      alookup cache (pathJoin dir CSV_FILENAME) = some (FileData.csv rows) →
      ∃ rows', alookup cache' (pathJoin dir CSV_FILENAME)
        = some (FileData.csv (rows ++ rows')) := by
  induction districts with
  | nil =>
    intro cache cache' rows e h hcur
    simp only [csv_rows_loop] at h
    cases h
    exact ⟨[], by simpa using hcur⟩
  | cons d0 rest ih =>
    intro cache cache' rows e h hcur
    simp only [csv_rows_loop] at h
    split at h
    · cases h; exact ⟨[], by simpa using hcur⟩
    · split at h
      · cases h; exact ⟨[], by simpa using hcur⟩
      · next row hrow =>
        obtain ⟨rows', hlook⟩ := ih h (alookup_write_self ..)
        exact ⟨row :: rows', by simpa [List.append_assoc] using hlook⟩
    · cases h; exact ⟨[], by simpa using hcur⟩

theorem csv_rows_loop_missing {dir : String} (districts : List District) :
    ∀ {cache : Cache} (rows : List (List String)),
      (∀ d ∈ districts, ∀ v, alookup cache (pathJoin dir
          (RANKING_PROPERTIES_FILENAME (district_display_name d))) = some v →
        ∃ obj, v = FileData.ranking obj) →
      (∀ d ∈ districts, ∀ obj, alookup cache (pathJoin dir
          (RANKING_PROPERTIES_FILENAME (district_display_name d)))
          = some (FileData.ranking obj) →
        ∀ field ∈ RANKING_PROPERTIES_JSON, (alookup obj field).isSome = true) →
      (∃ d ∈ districts, alookup cache (pathJoin dir
        (RANKING_PROPERTIES_FILENAME (district_display_name d))) = none) →
      ∃ d ∈ districts,
        alookup cache (pathJoin dir
          (RANKING_PROPERTIES_FILENAME (district_display_name d))) = none ∧
        (csv_rows_loop dir (pathJoin dir CSV_FILENAME) cache rows districts).2
          = some (Err.fileNotFound (pathJoin dir
            (RANKING_PROPERTIES_FILENAME (district_display_name d)))) := by
  induction districts with
  | nil => intro cache rows _ _ hex; simp at hex
  | cons d0 rest ih =>
    intro cache rows hshape hwf hex
    rcases habs0 : alookup cache (pathJoin dir
        (RANKING_PROPERTIES_FILENAME (district_display_name d0))) with _ | v
    · refine ⟨d0, List.mem_cons_self .., habs0, ?_⟩
      simp only [csv_rows_loop, habs0]
    · obtain ⟨obj, rfl⟩ := hshape d0 (List.mem_cons_self ..) v habs0
      have hfields := hwf d0 (List.mem_cons_self ..) obj habs0
      obtain ⟨row, hrow⟩ := make_row_total (district_display_name d0) hfields
      have hex' : ∃ d ∈ rest, alookup cache (pathJoin dir
          (RANKING_PROPERTIES_FILENAME (district_display_name d))) = none := by
        obtain ⟨d, hd, habs⟩ := hex
        rcases List.mem_cons.mp hd with rfl | hd'
        · rw [habs0] at habs; cases habs
        · exact ⟨d, hd', habs⟩
      have hloop : csv_rows_loop dir (pathJoin dir CSV_FILENAME) cache rows (d0 :: rest)
          = csv_rows_loop dir (pathJoin dir CSV_FILENAME)
              (cache.write (pathJoin dir CSV_FILENAME) (FileData.csv (rows ++ [row])))
              (rows ++ [row]) rest := by
        simp only [csv_rows_loop, habs0, hrow]
      rw [hloop]
      obtain ⟨d, hd, habs, herr⟩ := ih (rows ++ [row])
        (fun d hd v hv => hshape d (List.mem_cons_of_mem _ hd) v
          (by rwa [alookup_write_csv_ranking] at hv))
        (fun d hd obj hv => hwf d (List.mem_cons_of_mem _ hd) obj
          (by rwa [alookup_write_csv_ranking] at hv))
        (by
          obtain ⟨d, hd, habs⟩ := hex'
          exact ⟨d, hd, by rwa [alookup_write_csv_ranking]⟩)
      exact ⟨d, List.mem_cons_of_mem _ hd,
        by rwa [alookup_write_csv_ranking] at habs, herr⟩

theorem generate_csv_ok_loop {dir : String} {cache cache' : Cache}
    (h : generate_csv dir cache = (cache', none)) :
    ∃ districts0,
      alookup cache (pathJoin dir DISTRICTS_FILENAME)
        = some (FileData.districts districts0) ∧
      csv_rows_loop dir (pathJoin dir CSV_FILENAME)
        (cache.write (pathJoin dir CSV_FILENAME) (FileData.csv [csv_header]))
        [csv_header] (List.insertionSort district_ord districts0) = (cache', none) := by
  simp only [generate_csv] at h
  split at h
  · cases h
  · next districts0 heq =>
    have hlook := parse_districts_ok heq
    rw [alookup_write, if_neg (districts_path_ne_csv dir)] at hlook
    exact ⟨districts0, hlook, h⟩

/-- C5: when the Summary Compiler succeeds, summary.csv holds the header
followed by exactly one row per district of the cached district list (the
emitted order is a permutation of that list, one row each, each row headed
by the district identity key), and the rows appear in ascending
(stateAbbreviation, geographyName) order with both components compared
lexicographically as strings. -/
theorem summary_sorted {data_version_dir : String} {cache cache' : Cache}
    {ds : List District}
    (hds : alookup cache (districtsPathOf data_version_dir)
      = some (FileData.districts ds))
    (h : generate_csv data_version_dir cache = (cache', none)) :
    ∃ rows,
      alookup cache' (csvPathOf data_version_dir)
        = some (FileData.csv (csv_header :: rows)) ∧
      rows.map (fun r => r.head?)
        = (List.insertionSort district_ord ds).map (fun d => some (district_display_name d)) ∧
      (List.insertionSort district_ord ds).Perm ds ∧
      ((List.insertionSort district_ord ds).map district_sort_key).Pairwise
        (fun x y => str_lt x.1 y.1 = true ∨
          (x.1 = y.1 ∧ str_le x.2 y.2 = true)) := by
  obtain ⟨ds0, hds0, hloop⟩ := generate_csv_ok_loop h
  have hdseq : ds = ds0 := by
    rw [districtsPathOf] at hds
    rw [hds] at hds0
    simp only [Option.some.injEq, FileData.districts.injEq] at hds0
    exact hds0
  subst hdseq
  obtain ⟨rows', hlook', hnames⟩ := csv_rows_loop_content _ hloop (alookup_write_self ..)
  refine ⟨rows', ?_, hnames, List.perm_insertionSort district_ord ds, ?_⟩
  · rw [csvPathOf]
    simpa using hlook'
  · haveI : IsTrans District district_ord := ⟨district_le_trans⟩
    haveI : IsTotal District district_ord :=
      ⟨fun a b => by
        have h := district_le_total a b
        simpa only [district_ord, Bool.or_eq_true] using h⟩
    have hsorted := List.sorted_insertionSort district_ord ds
    refine List.pairwise_map.mpr (hsorted.imp ?_)
    intro a b hab
    simpa only [district_ord, district_le, key_le, district_sort_key,
      Bool.or_eq_true, Bool.and_eq_true, beq_iff_eq] using hab

/-- Witness for C5: the districts TX-5, AL-1, AL-10 compile to summary order
AL-1, AL-10, TX-5 (geographyName compared lexicographically as a string). -/
theorem summary_sorted_witness :
    ∃ rows,
      alookup (generate_csv dirW cacheW5).1 (csvPathOf dirW)
        = some (FileData.csv (csv_header :: rows)) ∧
      rows.map (fun r => r.head?)
        = (List.insertionSort district_ord [dTX5, dAL1, dAL10]).map
            (fun d => some (district_display_name d)) ∧
      (List.insertionSort district_ord [dTX5, dAL1, dAL10]).Perm
        [dTX5, dAL1, dAL10] ∧
      ((List.insertionSort district_ord [dTX5, dAL1, dAL10]).map
          district_sort_key).Pairwise
        (fun x y => str_lt x.1 y.1 = true ∨
          (x.1 = y.1 ∧ str_le x.2 y.2 = true)) :=
  @summary_sorted dirW cacheW5 (generate_csv dirW cacheW5).1 [dTX5, dAL1, dAL10]
    (by decide) (by decide)

/-- C6: after every full successful run (fetch phase followed by the summary
compilation), every district D of the cached district list has its
ranking-properties file present, and the cached object contains all nine
wireline-provider counters. -/
theorem full_run_ranking_complete {server : Server} {dataVersion : String}
    {providerStatistics : Bool} {st st' : St} {ds : List District}
    (h : main_run server dataVersion providerStatistics st = (st', none))
    (hds : alookup st'.cache (districtsPathOf (pathJoin DATA_DIR dataVersion))
      = some (FileData.districts ds)) :
    ∀ d ∈ ds, ∃ obj,
      alookup st'.cache (rankingPathOf (pathJoin DATA_DIR dataVersion) d)
        = some (FileData.ranking obj) ∧
      ∀ field ∈ RANKING_PROPERTIES_JSON, (alookup obj field).isSome = true := by
  intro d hd
  simp only [main_run] at h
  split at h
  · cases h
  · next st1 heq =>
    injection h with h1 h2
    subst h1
    have hgen : generate_csv (pathJoin DATA_DIR dataVersion) st1.cache
        = ((generate_csv (pathJoin DATA_DIR dataVersion) st1.cache).1, none) :=
      Prod.ext rfl h2
    obtain ⟨ds0, hds0, hloop⟩ := generate_csv_ok_loop hgen
    have hag := generate_csv_agrees hgen
    have hds' : alookup (generate_csv (pathJoin DATA_DIR dataVersion) st1.cache).1
        (pathJoin (pathJoin DATA_DIR dataVersion) DISTRICTS_FILENAME)
        = some (FileData.districts ds) := hds
    rw [hag _ (districts_path_ne_csv _)] at hds'
    rw [hds'] at hds0
    injection hds0 with hi1
    injection hi1 with hi2
    subst hi2
    have hd' : d ∈ List.insertionSort district_ord ds :=
      (List.Perm.mem_iff (List.perm_insertionSort district_ord ds)).mpr hd
    obtain ⟨obj, hobj, hfields⟩ := csv_rows_loop_all_present _ hloop d hd'
    rw [alookup_write_csv_ranking] at hobj
    refine ⟨obj, ?_, hfields⟩
    show alookup (generate_csv (pathJoin DATA_DIR dataVersion) st1.cache).1
      (rankingPathOf (pathJoin DATA_DIR dataVersion) d) = some (FileData.ranking obj)
    rw [rankingPathOf, hag _ (ranking_path_ne_csv _ _)]
    exact hobj

/-- Witness for C6: a full successful run against the concrete healthy server
leaves both districts' ranking files cached with all nine counters. -/
theorem full_run_ranking_complete_witness :
    ∃ obj,
      alookup (main_run serverW "jun2014" false ⟨[], []⟩).1.cache
        (rankingPathOf (pathJoin DATA_DIR "jun2014") dAL1)
        = some (FileData.ranking obj) ∧
      ∀ field ∈ RANKING_PROPERTIES_JSON, (alookup obj field).isSome = true :=
  @full_run_ranking_complete serverW "jun2014" false ⟨[], []⟩
    (main_run serverW "jun2014" false ⟨[], []⟩).1 [dAL1, dTX5]
    (by decide) (by decide) dAL1 (by decide)

/-- C7: invoking the Summary Compiler while some district's ranking
properties file is absent fails with the missing-file error naming a missing
district's ranking path, rather than emitting a row with blank or default
values for it; the side hypotheses state only that the ranking files that do
exist are well-shaped, so the reported failure is the missing file. -/
theorem missing_ranking_compile_fails {data_version_dir : String}
    {cache : Cache} {ds : List District} {d0 : District}
    (hds : alookup cache (districtsPathOf data_version_dir)
      = some (FileData.districts ds))
    (hshape : ∀ d ∈ ds, ∀ v,
      alookup cache (rankingPathOf data_version_dir d) = some v →
      ∃ obj, v = FileData.ranking obj)
    (hwf : ∀ d ∈ ds, ∀ obj,
      alookup cache (rankingPathOf data_version_dir d)
        = some (FileData.ranking obj) →
      ∀ field ∈ RANKING_PROPERTIES_JSON, (alookup obj field).isSome = true)
    (hd0 : d0 ∈ ds)
    (habs : alookup cache (rankingPathOf data_version_dir d0) = none) :
    ∃ d ∈ ds,
      alookup cache (rankingPathOf data_version_dir d) = none ∧
      (generate_csv data_version_dir cache).2
        = some (Err.fileNotFound (rankingPathOf data_version_dir d)) := by
  simp only [rankingPathOf] at hshape hwf habs ⊢
  have hmem : ∀ d : District, d ∈ List.insertionSort district_ord ds ↔ d ∈ ds :=
    fun d => List.Perm.mem_iff (List.perm_insertionSort district_ord ds)
  have hshape1 : ∀ d ∈ List.insertionSort district_ord ds, ∀ v,
      alookup (cache.write (pathJoin data_version_dir CSV_FILENAME)
        (FileData.csv [csv_header]))
        (pathJoin data_version_dir
          (RANKING_PROPERTIES_FILENAME (district_display_name d))) = some v →
      ∃ obj, v = FileData.ranking obj := by
    intro d hd v hv
    rw [alookup_write_csv_ranking] at hv
    exact hshape d ((hmem d).mp hd) v hv
  have hwf1 : ∀ d ∈ List.insertionSort district_ord ds, ∀ obj,
      alookup (cache.write (pathJoin data_version_dir CSV_FILENAME)
        (FileData.csv [csv_header]))
        (pathJoin data_version_dir
          (RANKING_PROPERTIES_FILENAME (district_display_name d)))
        = some (FileData.ranking obj) →
      ∀ field ∈ RANKING_PROPERTIES_JSON, (alookup obj field).isSome = true := by
    intro d hd obj hv
    rw [alookup_write_csv_ranking] at hv
    exact hwf d ((hmem d).mp hd) obj hv
  have hex1 : ∃ d ∈ List.insertionSort district_ord ds,
      alookup (cache.write (pathJoin data_version_dir CSV_FILENAME)
        (FileData.csv [csv_header]))
        (pathJoin data_version_dir
          (RANKING_PROPERTIES_FILENAME (district_display_name d))) = none :=
    ⟨d0, (hmem d0).mpr hd0, by rw [alookup_write_csv_ranking]; exact habs⟩
  obtain ⟨d, hd, habs', herr⟩ :=
    csv_rows_loop_missing (List.insertionSort district_ord ds) [csv_header] hshape1 hwf1 hex1
  refine ⟨d, (hmem d).mp hd, ?_, ?_⟩
  · rwa [alookup_write_csv_ranking] at habs'
  · have hds1 : alookup (cache.write (pathJoin data_version_dir CSV_FILENAME)
        (FileData.csv [csv_header]))
        (pathJoin data_version_dir DISTRICTS_FILENAME)
        = some (FileData.districts ds) := by
      rw [alookup_write, if_neg (districts_path_ne_csv _)]
      rw [districtsPathOf] at hds
      exact hds
    simp only [generate_csv, parse_districts_of_lookup hds1]
    exact herr

/-- Witness for C7: the three-district cache with AL-10's ranking file absent
makes the compiler fail with the missing-file error for a missing district. -/
theorem missing_ranking_compile_fails_witness :
    ∃ d ∈ [dTX5, dAL1, dAL10],
      alookup cacheW7 (rankingPathOf dirW d) = none ∧
      (generate_csv dirW cacheW7).2
        = some (Err.fileNotFound (rankingPathOf dirW d)) :=
  @missing_ranking_compile_fails dirW cacheW7 [dTX5, dAL1, dAL10] dAL10
    (by decide)
    (by
      intro d hd v hv
      have hd3 : d = dTX5 ∨ d = dAL1 ∨ d = dAL10 := by simpa using hd
      rcases hd3 with rfl | rfl | rfl
      · rw [show alookup cacheW7 (rankingPathOf dirW dTX5)
            = some (FileData.ranking (entryW dTX5)) from by decide] at hv
        injection hv with hv'
        exact ⟨entryW dTX5, hv'.symm⟩
      · rw [show alookup cacheW7 (rankingPathOf dirW dAL1)
            = some (FileData.ranking (entryW dAL1)) from by decide] at hv
        injection hv with hv'
        exact ⟨entryW dAL1, hv'.symm⟩
      · rw [show alookup cacheW7 (rankingPathOf dirW dAL10) = none from by decide] at hv
        cases hv)
    (by
      intro d hd obj hv
      have hd3 : d = dTX5 ∨ d = dAL1 ∨ d = dAL10 := by simpa using hd
      rcases hd3 with rfl | rfl | rfl
      · rw [show alookup cacheW7 (rankingPathOf dirW dTX5)
            = some (FileData.ranking (entryW dTX5)) from by decide] at hv
        injection hv with hv'
        injection hv' with hv''
        subst hv''
        decide
      · rw [show alookup cacheW7 (rankingPathOf dirW dAL1)
            = some (FileData.ranking (entryW dAL1)) from by decide] at hv
        injection hv with hv'
        injection hv' with hv''
        subst hv''
        decide
      · rw [show alookup cacheW7 (rankingPathOf dirW dAL10) = none from by decide] at hv
        cases hv)
    (by simp) (by decide)

/-- C9: generate_csv opens and truncates summary.csv and writes the header
before reading any district data, so (i) whatever happens afterwards the
summary file holds the header followed by the rows already emitted — the
compile step is not atomic on error; (ii) with the districts file missing it
still leaves the header-only file next to the fileNotFound error; (iii) for
an empty district list it succeeds producing exactly the header-only file. -/
theorem generate_csv_header_and_prefix_rows {data_version_dir : String}
    {cache : Cache} :
    (∃ rows', alookup (generate_csv data_version_dir cache).1
        (csvPathOf data_version_dir)
        = some (FileData.csv (csv_header :: rows'))) ∧
    (alookup cache (districtsPathOf data_version_dir) = none →
      generate_csv data_version_dir cache
        = (cache.write (csvPathOf data_version_dir) (FileData.csv [csv_header]),
           some (Err.fileNotFound (districtsPathOf data_version_dir)))) ∧
    (alookup cache (districtsPathOf data_version_dir)
        = some (FileData.districts []) →
      generate_csv data_version_dir cache
        = (cache.write (csvPathOf data_version_dir) (FileData.csv [csv_header]),
           none)) := by
  refine ⟨?_, ?_, ?_⟩
  · simp only [generate_csv, csvPathOf]
    split
    · exact ⟨[], by simp [alookup_write_self]⟩
    · next districts0 heq =>
      obtain ⟨rows', hlook⟩ := csv_rows_loop_csv_extends
        (List.insertionSort district_ord districts0) rfl (alookup_write_self ..)
      exact ⟨rows', by simpa using hlook⟩
  · intro habs
    have habs1 : alookup (cache.write (pathJoin data_version_dir CSV_FILENAME)
        (FileData.csv [csv_header]))
        (pathJoin data_version_dir DISTRICTS_FILENAME) = none := by
      rw [alookup_write, if_neg (districts_path_ne_csv _)]
      rw [districtsPathOf] at habs
      exact habs
    simp only [generate_csv, csvPathOf, districtsPathOf,
      parse_districts_none habs1]
  · intro hsome
    have hds1 : alookup (cache.write (pathJoin data_version_dir CSV_FILENAME)
        (FileData.csv [csv_header]))
        (pathJoin data_version_dir DISTRICTS_FILENAME)
        = some (FileData.districts []) := by
      rw [alookup_write, if_neg (districts_path_ne_csv _)]
      rw [districtsPathOf] at hsome
      exact hsome
    simp only [generate_csv, csvPathOf, parse_districts_of_lookup hds1]
    simp [csv_rows_loop, List.insertionSort]

/-- Witness for C9: against an empty cache the compiler writes the header-only
summary file and fails with the missing districts file. -/
theorem generate_csv_header_and_prefix_rows_witness :
    generate_csv dirW []
      = ([(csvPathOf dirW, FileData.csv [csv_header])],
         some (Err.fileNotFound (districtsPathOf dirW))) :=
  (@generate_csv_header_and_prefix_rows dirW []).2.1 (by decide)

end Broadband
